import Mathlib

/-!
# Verification of the aichat-history chat-log normalization layer

This file gives a shallow embedding, in Lean, of the per-backend parsers of
the aichat-history repository (the Claude Code log-stream decoder in
`backends/claude_code.py`, the Cursor keyed-store decoder in
`backends/cursor.py`, the OpenCode directory-tree decoder in
`backends/opencode.py`, and the JSON exporter in `export.py`), together with
theorems settling the stated properties of those parsers.

Python values parsed from JSON are modelled by the inductive type `J`.
Python code that can raise an exception is modelled in the `PyResult` monad
(`Except String`); an `.error` value marks a code path on which the Python
original raises (the string names the exception).  Timestamps are opaque:
a `DT` is either an epoch-millisecond integer (Cursor / OpenCode) or an ISO
string (Claude Code); no property stated here inspects the rendered value of
a timestamp, only its presence or absence.
-/

set_option maxRecDepth 10000

namespace AichatHistory

/-- A parsed JSON value, as produced by Python's `json.loads`.  `J.null` is
Python `None`.  Numbers are modelled as integers (no stated property involves
fractional values). -/
inductive J where
  | null
  | bool (b : Bool)
  | num (n : Int)
  | str (s : String)
  | arr (xs : List J)
  | obj (kvs : List (String × J))

/-- A Python dict parsed from a JSON object: an association list assumed
duplicate-free (as `json.loads` produces). -/
abbrev Dict := List (String × J)

/-- Computations that can raise a Python exception; the string names the
exception raised. -/
abbrev PyResult (α : Type) := Except String α

/-- An opaque datetime: Cursor and OpenCode datetimes are built from
epoch-millisecond integers, Claude Code ones from ISO-8601 strings.  The
rendering of a datetime is never inspected by any stated property. -/
inductive DT where
  | ms (n : Int)
  | iso (s : String)
deriving DecidableEq

/-- `d.get(k, default)` on a Python dict: the stored value when the key is
present (a stored JSON `null` is Python `None`, i.e. `J.null`), otherwise the
default. -/
def dictGetD (d : Dict) (k : String) (dflt : J) : J :=
  match d.find? (fun kv => kv.1 = k) with
  | some kv => kv.2
  | none => dflt

/-- Python truthiness of a parsed JSON value. -/
def pyTruthy : J → Bool
  | .null => false
  | .bool b => b
  | .num n => n != 0
  | .str s => s != ""
  | .arr xs => !xs.isEmpty
  | .obj kvs => !kvs.isEmpty

/-- Python `v == lit` for a string literal `lit`: true exactly when `v` is
that string (Python equality across JSON types is `False`, never an error). -/
def jEqStr (v : J) (lit : String) : Bool :=
  match v with
  | .str s => s = lit
  | _ => false

/-- The ASCII whitespace characters that Python's `str.strip()` removes
(its additional Unicode whitespace is not modelled; no stated property
involves non-ASCII whitespace). -/
def pyCharWs (c : Char) : Bool :=
  c == ' ' || c == '\t' || c == '\n' || c == '\r' || c == '\x0b' || c == '\x0c'

/-- Python `s.strip()`: removes leading and trailing whitespace. -/
def pyStrip (s : String) : String :=
  String.mk (((s.toList.dropWhile pyCharWs).reverse.dropWhile pyCharWs).reverse)

/-- `s.strip()` is truthy, i.e. `s` has a non-whitespace character. -/
def pyNonBlank (s : String) : Bool :=
  pyStrip s ≠ ""

/-- Python `str()` / f-string coercion of a parsed JSON value.  The rendering
of containers is abstracted (Python would use `repr`); no stated property
depends on it. -/
def pyStrOf : J → String
  | .null => "None"
  | .bool b => if b then "True" else "False"
  | .num n => toString n
  | .str s => s
  | .arr _ => "[...]"
  | .obj _ => "{...}"

/-- A Python numeric coercion for comparisons: ints are themselves and bools
are 0/1 (Python `bool` is an `int` subclass); anything else is not a number,
so comparing it with an int raises `TypeError`. -/
def toPyNum : J → Option Int
  | .num n => some n
  | .bool b => some (if b then 1 else 0)
  | _ => none

/-- Iterating a Python value with `for x in v`: lists yield elements, strings
yield their characters (each a one-character string), dicts yield their keys;
anything else raises `TypeError`. -/
def pyIter : J → PyResult (List J)
  | .arr xs => .ok xs
  | .str s => .ok (s.toList.map (fun c => J.str (String.mk [c])))
  | .obj kvs => .ok (kvs.map (fun kv => J.str kv.1))
  | _ => .error "TypeError: object is not iterable"

/-- The canonical message record (dataclass `Message` in `core.py`).  `role`,
`content` and metadata values are parsed JSON values, since the Python
dataclass stores whatever the decoders hand it. -/
structure Message where
  role : J
  content : J
  timestamp : Option DT := none
  message_type : String := "text"
  metadata : List (String × J) := []

/-- The canonical session record (dataclass `Session` in `core.py`).  `id`
and `workspace_id` are always strings in the code (built by f-strings /
directory names); `title`, `message_count` and `project_path` are stored
verbatim from parsed JSON, so they are `J`. -/
structure Session where
  id : String
  workspace_id : String
  title : J
  message_count : J
  created : Option DT := none
  updated : Option DT := none
  source : String := ""
  project_path : J := J.str ""

/-- Python `s.split(sep, maxsplit)` for a one-character separator: splits at
the first `maxsplit` occurrences, leaving the remainder intact. -/
def pySplitCh (s : String) (c : Char) (maxsplit : Nat) : List String :=
  go "" s.toList maxsplit
where
  /-- Accumulates the current piece while walking the characters. -/
  go (acc : String) : List Char → Nat → List String
    | [], _ => [acc]
    | ch :: t, k =>
      if ch = c then
        match k with
        | 0 => go (acc.push ch) t 0
        | k + 1 => acc :: go "" t k
      else go (acc.push ch) t k

/-- Python `s[:n]`: the first `n` characters (code points). -/
def pySlice (s : String) (n : Nat) : String :=
  String.mk (s.toList.take n)

/-- `_truncate` in `backends/cursor.py`: truncate to `maxLen` characters,
replacing the tail with an ellipsis when the input is longer. -/
def pyTruncate (text : String) (maxLen : Nat) : String :=
  if text.length ≤ maxLen then text
  else (pySlice text (maxLen - 3)) ++ "..."

/-- `_ms_to_datetime` in `backends/cursor.py` and `backends/opencode.py`,
applied to a raw parsed value: `None` maps to `None`, numbers (and bools,
which Python accepts as ints) to a datetime, and any other value raises
`TypeError` inside `datetime.fromtimestamp` (not caught there).  The
`OverflowError` fallback for timestamps outside the representable datetime
range is not modelled; no stated property inspects the produced value. -/
def msToDatetimeJ : J → PyResult (Option DT)
  | .null => .ok none
  | .num n => .ok (some (DT.ms n))
  | .bool b => .ok (some (DT.ms (if b then 1 else 0)))
  | _ => .error "TypeError: unsupported operand type for /"

/-- `.get` on a value that must be a Python dict; anything else raises
`AttributeError` (the Python code calls `.get` unguarded). -/
def asDict : J → PyResult Dict
  | .obj kvs => .ok kvs
  | _ => .error "AttributeError: no attribute get"

/-- `sep.join(parts)` where every part must be a string, else `TypeError`. -/
def joinStrs (sep : String) (parts : List J) : PyResult String := do
  let ss ← parts.mapM (fun p =>
    match p with
    | J.str s => Except.ok s
    | _ => Except.error "TypeError: sequence item is not str")
  pure (String.intercalate sep ss)

/-! ## Log-Stream Decoder (`backends/claude_code.py`) -/

/-- `datetime.fromisoformat`, abstracted: a string opening with a
`YYYY-MM-DD` date yields a datetime carrying the string, anything else
raises `ValueError` (which `_parse_iso` catches, giving `None`).  The full
ISO-8601 grammar is not reproduced; no stated property depends on which
strings parse, only on the fact that parsing a string never raises an
uncaught exception. -/
def fromIsoformat (s : String) : Option DT :=
  match s.toList with
  | y1 :: y2 :: y3 :: y4 :: '-' :: m1 :: m2 :: '-' :: d1 :: d2 :: _ =>
    if [y1, y2, y3, y4, m1, m2, d1, d2].all Char.isDigit then some (DT.iso s)
    else none
  | _ => none

/-- `_parse_iso` in `backends/claude_code.py`, applied to the raw parsed
value: falsy values give `None`; a truthy string is Z-normalized and parsed
(`ValueError`/`TypeError` are caught, giving `None`); a truthy non-string
raises `AttributeError` at `.endswith`, which the caller does not catch. -/
def parseIso (v : J) : PyResult (Option DT) :=
  if pyTruthy v = false then .ok none
  else match v with
    | .str s =>
      let s' := if s.toList.getLast? == some 'Z' then String.mk s.toList.dropLast ++ "+00:00" else s
      .ok (fromIsoformat s')
    | _ => .error "AttributeError: no attribute endswith"

/-- Combines per-block contributions `(messages, text_parts)` in order, the
way the Python block loops append to their two accumulators. -/
def blockFold (step : J → PyResult (List Message × List String)) :
    List J → PyResult (List Message × List String)
  | [] => pure ([], [])
  | b :: rest => do
    let (m1, t1) ← step b
    let (m2, t2) ← blockFold step rest
    pure (m1 ++ m2, t1 ++ t2)

/-- The sub-block flattening of a `tool_result` block's list content
(`_parse_user_entry`, inner loop): text sub-blocks contribute their raw
`text` field, image sub-blocks a fixed placeholder, unknown dict sub-blocks
any truthy `text` field, string sub-blocks themselves; other sub-blocks are
skipped. -/
def toolResultParts : List J → List J
  | [] => []
  | sub :: rest =>
    let tail := toolResultParts rest
    match sub with
    | .obj kvs =>
      let st := dictGetD kvs "type" (.str "")
      if jEqStr st "text" then dictGetD kvs "text" (.str "") :: tail
      else if jEqStr st "image" then .str "[Image]" :: tail
      else
        let t := dictGetD kvs "text" (.str "")
        if pyTruthy t then t :: tail else tail
    | .str s => .str s :: tail
    | _ => tail

/-- The `tool_result` arm of the block loop in `_parse_user_entry`: the
block's content, when a list, is flattened sub-block by sub-block and
joined; the message role is `tool`, or `error` when the block carries a
truthy `is_error` flag; falsy content becomes the `(empty result)`
placeholder. -/
def toolResultMessage (ts : Option DT) (kvs : Dict) : PyResult Message := do
  let tc := dictGetD kvs "content" (.str "")
  let tc2 ←
    match tc with
    | .arr subs => do
      let s ← joinStrs "\n" (toolResultParts subs)
      pure (J.str s)
    | other => pure other
  let isErr := pyTruthy (dictGetD kvs "is_error" (.bool false))
  let c := if pyTruthy tc2 then J.str (pyStrOf tc2) else J.str "(empty result)"
  pure { role := .str (if isErr then "error" else "tool"), content := c,
         timestamp := ts, message_type := "tool_result",
         metadata := [("tool_use_id", dictGetD kvs "tool_use_id" (.str ""))] }

/-- One iteration of the block loop in `_parse_user_entry`: a non-dict block
contributes its text when it is a non-blank string; a `text` block
accumulates non-blank text; a `tool_result` block emits one standalone
`tool`/`error` message; other dict blocks are skipped. -/
def userStep (ts : Option DT) (block : J) : PyResult (List Message × List String) :=
  match block with
  | .obj kvs =>
    let bt := dictGetD kvs "type" (.str "")
    if jEqStr bt "text" then
      match dictGetD kvs "text" (.str "") with
      | .str t => pure ([], if pyNonBlank t then [t] else [])
      | _ => .error "AttributeError: no attribute strip"
    else if jEqStr bt "tool_result" then do
      let m ← toolResultMessage ts kvs
      pure ([m], [])
    else pure ([], [])
  | .str s => pure ([], if pyNonBlank s then [s] else [])
  | _ => pure ([], [])

/-- `_parse_user_entry` in `backends/claude_code.py`. -/
def parseUserEntry (entry : Dict) (ts : Option DT) : PyResult (List Message) := do
  let msgData ← asDict (dictGetD entry "message" (.obj []))
  let content := dictGetD msgData "content" (.arr [])
  match content with
  | .str s =>
    if !pyNonBlank s then pure []
    else pure [{ role := .str "user", content := .str s, timestamp := ts }]
  | other => do
    let blocks ← pyIter other
    let (msgs, texts) ← blockFold (userStep ts) blocks
    if texts.isEmpty then pure msgs
    else pure ({ role := .str "user", content := .str (String.intercalate "\n" texts),
                 timestamp := ts } :: msgs)

/-- The `tool_use` arm of the block loop in `_parse_assistant_entry`: one
`tool`/`tool_call` message whose content is a one-line summary (tool name,
plus file path if present in the input, else a command truncated to 100
characters with an ellipsis marker). -/
def toolUseMessage (ts : Option DT) (kvs : Dict) : PyResult Message := do
  let toolName := dictGetD kvs "name" (.str "unknown")
  let toolInput ← asDict (dictGetD kvs "input" (.obj []))
  let filePath := dictGetD toolInput "file_path" (dictGetD toolInput "path" (.str ""))
  let command := dictGetD toolInput "command" (.str "")
  let summaryParts ←
    if pyTruthy filePath then pure [toolName, filePath]
    else if pyTruthy command then
      match command with
      | J.str c => pure [toolName, J.str (pySlice c 100 ++ (if c.length > 100 then "..." else ""))]
      | _ => Except.error "TypeError: unsupported slice"
    else pure [toolName]
  let c ← joinStrs ": " summaryParts
  pure { role := .str "tool", content := .str c, timestamp := ts,
         message_type := "tool_call",
         metadata := [("tool_name", toolName), ("file_path", filePath),
                      ("tool_use_id", dictGetD kvs "id" (.str ""))] }

/-- One iteration of the block loop in `_parse_assistant_entry` (see
`toolUseMessage` for the `tool_use` arm). -/
def assistantStep (ts : Option DT) (block : J) : PyResult (List Message × List String) :=
  match block with
  | .obj kvs =>
    let bt := dictGetD kvs "type" (.str "")
    if jEqStr bt "text" then
      match dictGetD kvs "text" (.str "") with
      | .str t => pure ([], if pyNonBlank t then [t] else [])
      | _ => .error "AttributeError: no attribute strip"
    else if jEqStr bt "tool_use" then do
      let m ← toolUseMessage ts kvs
      pure ([m], [])
    else if jEqStr bt "thinking" then
      match dictGetD kvs "thinking" (.str "") with
      | .str t =>
        pure ((if pyNonBlank t then
                 [{ role := .str "thinking", content := .str t, timestamp := ts,
                    message_type := "thinking" }]
               else []), [])
      | _ => .error "AttributeError: no attribute strip"
    else pure ([], [])
  | _ => pure ([], [])

/-- `_parse_assistant_entry` in `backends/claude_code.py`: string content
gives one `assistant`/`text` message when non-blank; block content is folded
block by block and the accumulated text, when any, is inserted as a single
`assistant`/`text` message at the front, before the tool/thinking messages. -/
def parseAssistantEntry (entry : Dict) (ts : Option DT) : PyResult (List Message) := do
  let msgData ← asDict (dictGetD entry "message" (.obj []))
  let contentBlocks := dictGetD msgData "content" (.arr [])
  match contentBlocks with
  | .str s =>
    if !pyNonBlank s then pure []
    else pure [{ role := .str "assistant", content := .str s, timestamp := ts }]
  | other => do
    let blocks ← pyIter other
    let (msgs, texts) ← blockFold (assistantStep ts) blocks
    if texts.isEmpty then pure msgs
    else pure ({ role := .str "assistant", content := .str (String.intercalate "\n" texts),
                 timestamp := ts } :: msgs)

/-- The inert entry types that `_entry_to_messages` drops. -/
def inertEntryTypes : List String :=
  ["file-history-snapshot", "progress", "system", "summary", "queue-operation"]

/-- `_entry_to_messages` in `backends/claude_code.py`: the timestamp is
parsed first, then inert types yield no messages, `user`/`human` and
`assistant` entries are parsed, and any other type yields no messages. -/
def entryToMessages (entry : Dict) : PyResult (List Message) := do
  let entryType := dictGetD entry "type" (.str "")
  let ts ← parseIso (dictGetD entry "timestamp" .null)
  if inertEntryTypes.any (fun t => jEqStr entryType t) then pure []
  else if jEqStr entryType "human" || jEqStr entryType "user" then parseUserEntry entry ts
  else if jEqStr entryType "assistant" then parseAssistantEntry entry ts
  else pure []

/-- One parsed JSONL line handed to `_entry_to_messages`: a non-dict line
raises `AttributeError` at `entry.get`, which `_parse_jsonl` does not catch. -/
def entryToMessagesTop : J → PyResult (List Message)
  | .obj kvs => entryToMessages kvs
  | _ => .error "AttributeError: no attribute get"

/-- `_parse_jsonl` over the successfully decoded JSON lines of a session
file (blank and malformed lines are skipped by the caller before this
point). -/
def parseJsonl (entries : List J) : PyResult (List Message) := do
  let msgss ← entries.mapM entryToMessagesTop
  pure msgss.flatten

/-- A content block that is a `text` block (a dict whose `type` is the
string `"text"`) carrying a string `text` with a non-whitespace character:
exactly the blocks whose text the assistant parser accumulates. -/
def isNonBlankTextBlock (b : J) : Bool :=
  match b with
  | .obj kvs =>
    jEqStr (dictGetD kvs "type" (.str "")) "text" &&
      (match dictGetD kvs "text" (.str "") with
       | .str t => pyNonBlank t
       | _ => false)
  | _ => false

/-- A content block that is a `tool_use` block. -/
def isToolUseBlock (b : J) : Bool :=
  match b with
  | .obj kvs => jEqStr (dictGetD kvs "type" (.str "")) "tool_use"
  | _ => false

/-- The text the assistant block loop accumulates from one block: the
`text` field when the block is a non-blank text block, nothing otherwise. -/
def assistantTextOfBlock (b : J) : Option String :=
  match b with
  | .obj kvs =>
    if jEqStr (dictGetD kvs "type" (.str "")) "text" then
      match dictGetD kvs "text" (.str "") with
      | .str t => if pyNonBlank t then some t else none
      | _ => none
    else none
  | _ => none

/-- The texts the assistant block loop accumulates: the `text` field of each
non-blank text block, in block order. -/
def assistantTexts (blocks : List J) : List String :=
  blocks.filterMap assistantTextOfBlock

/-- A concrete non-blank text block used as a test fixture. -/
def c4Block1 : J := J.obj [("type", J.str "text"), ("text", J.str "ok then")]

/-- A concrete `tool_use` block used as a test fixture. -/
def c4Block2 : J :=
  J.obj [("type", J.str "tool_use"), ("name", J.str "Bash"),
         ("input", J.obj [("command", J.str "ls")])]

/-- A concrete assistant record whose content holds `c4Block1` then
`c4Block2`. -/
def c4Entry : Dict := [("message", J.obj [("content", J.arr [c4Block1, c4Block2])])]

/-- The messages the decoder produces for `c4Entry`. -/
def c4Out : List Message :=
  [{ role := J.str "assistant", content := J.str "ok then", timestamp := none },
   { role := J.str "tool", content := J.str "Bash: ls", timestamp := none,
     message_type := "tool_call",
     metadata := [("tool_name", J.str "Bash"), ("file_path", J.str ""),
                  ("tool_use_id", J.str "")] }]


/-! ## Keyed-Store Decoder (`backends/cursor.py`) -/

/-- The sort key of `session_gens.sort(key=lambda g: g.get("unixMs", 0))`:
the generation's `unixMs` coerced to a number.  Python raises `TypeError`
when its sort actually compares a non-numeric key; here such a key sorts
as 0.  Every stated property assumes numeric-or-absent `unixMs` fields,
where the two agree. -/
def genSortKey (g : Dict) : Int :=
  (toPyNum (dictGetD g "unixMs" (J.num 0))).getD 0

/-- Insertion into a key-sorted list: a new element goes before the first
element of larger-or-equal key, so earlier-emitted equal keys stay first. -/
def oInsert (key : α → Int) (a : α) : List α → List α
  | [] => [a]
  | b :: l => if key a ≤ key b then a :: b :: l else b :: oInsert key a l

/-- Stable insertion sort by integer key.  Python's `list.sort` (Timsort) is
stable, and any two stable sorts by the same key agree, so this models it
faithfully. -/
def iSort (key : α → Int) : List α → List α
  | [] => []
  | b :: l => oInsert key b (iSort key l)

/-- `a <= b` under Python numeric comparison: both sides must be numbers
(ints or bools), else `TypeError`. -/
def pyCmpLe (a b : J) : PyResult Bool :=
  match toPyNum a, toPyNum b with
  | some x, some y => .ok (decide (x ≤ y))
  | _, _ => .error "TypeError: comparison not supported"

/-- The per-generation bound checks shared by `_count_messages_in_range` and
`_get_workspace_messages`: a generation with no `unixMs` (absent or null) is
skipped; a present bound excludes a timestamp strictly outside it (bounds
inclusive); a comparison against a non-numeric value raises `TypeError`
(string-to-string comparisons, which Python would order lexicographically,
are not modelled — no stated property involves them). -/
def genInRange (startMs endMs : J) (g : Dict) : PyResult Bool :=
  match dictGetD g "unixMs" J.null with
  | J.null => pure false
  | ts => do
    let skipStart ←
      match startMs with
      | J.null => pure false
      | s => do
        let le ← pyCmpLe s ts
        pure (!le)
    if skipStart then pure false
    else do
      let skipEnd ←
        match endMs with
        | J.null => pure false
        | e => do
          let le ← pyCmpLe ts e
          pure (!le)
      if skipEnd then pure false else pure true

/-- `_count_messages_in_range` in `backends/cursor.py`: an empty generation
list counts 0; with both bounds absent, every generation counts (the
short-circuit `return len(generations)`); otherwise exactly the generations
whose timestamp passes the bound checks count. -/
def countMessagesInRange (generations : List Dict) (startMs endMs : J) :
    PyResult Int := do
  if generations.isEmpty then pure 0
  else
    match startMs, endMs with
    | J.null, J.null => pure (Int.ofNat generations.length)
    | _, _ => do
      let flags ← generations.mapM (genInRange startMs endMs)
      pure (Int.ofNat (flags.count true))

/-- The in-range filter loop of `_get_workspace_messages` (membership of
`session_gens`), in list order. -/
def filterInRange (startMs endMs : J) : List Dict → PyResult (List Dict)
  | [] => pure []
  | g :: rest => do
    let b ← genInRange startMs endMs g
    let tail ← filterInRange startMs endMs rest
    pure (if b then g :: tail else tail)

/-- `session_gens` of `_get_workspace_messages`: the in-range generations,
sorted ascending by timestamp (stably). -/
def sessionGensOf (generations : List Dict) (startMs endMs : J) :
    PyResult (List Dict) := do
  let fs ← filterInRange startMs endMs generations
  pure (iSort genSortKey fs)

/-- A generation of composer type — the only kind that participates in the
prompt/generation interleave. -/
def isComposerGen (g : Dict) : Bool :=
  jEqStr (dictGetD g "type" (J.str "")) "composer"

/-- The interleave loop of `_get_workspace_messages`: for each composer
generation, one prompt (when the shared cursor has any left) is emitted as a
user message carrying the generation's timestamp, then the generation's
truthy `textDescription` is emitted as an assistant message; the final
prompt cursor is returned. -/
def interleaveLoop (prompts : List J) : List Dict → Nat → PyResult (List Message × Nat)
  | [], idx => pure ([], idx)
  | gen :: rest, idx => do
    let ts ← msToDatetimeJ (dictGetD gen "unixMs" J.null)
    let (userPart, idx2) : List Message × Nat :=
      match prompts.get? idx with
      | some p =>
        ([{ role := J.str "user", content := p, timestamp := ts,
            message_type := "text" } ], idx + 1)
      | none => ([], idx)
    let desc := dictGetD gen "textDescription" (J.str "")
    let asstPart :=
      if pyTruthy desc then
        [{ role := J.str "assistant", content := desc, timestamp := ts,
           message_type := "text" }]
      else []
    let (msgsRest, idxFinal) ← interleaveLoop prompts rest idx2
    pure (userPart ++ asstPart ++ msgsRest, idxFinal)

/-- The trailing `while prompt_idx < len(prompts)` loop: every prompt from
the cursor onward becomes a user text message with no timestamp, in order. -/
def leftoverMessages (prompts : List J) (idx : Nat) : List Message :=
  (prompts.drop idx).map (fun p =>
    { role := J.str "user", content := p, message_type := "text" })

/-- The reconstruction core of `_get_workspace_messages`, once the target
composer's bounds, the prompts and the generations are in hand: filter the
generations to the session range, sort them, keep the composer-typed ones,
interleave prompts before them, and append the leftover prompts. -/
def getWorkspaceMessagesCore (prompts : List J) (generations : List Dict)
    (startMs endMs : J) : PyResult (List Message) := do
  let sg ← sessionGensOf generations startMs endMs
  let composerGens := sg.filter isComposerGen
  let (msgs, idx) ← interleaveLoop prompts composerGens 0
  pure (msgs ++ leftoverMessages prompts idx)

/-- One workspace `state.vscdb`, as `_query_item_table` plus `json.loads`
see it: a key maps to `none` when the row is absent or unreadable (the query
returns `None`), to `some none` when its value is not valid JSON
(`json.loads` raises and the caller returns empty), and to `some (some j)`
when it parses. -/
structure CursorDB where
  items : List (String × Option J)

/-- The readable, parsed value stored under a key. -/
def queryParsed (db : CursorDB) (key : String) : Option (Option J) :=
  (db.items.find? (fun kv => kv.1 = key)).map (fun kv => kv.2)

/-- `_read_prompts`: the truthy `text` of each dict entry of
`aiService.prompts`; an unreadable or corrupt key yields no prompts. -/
def readPrompts (db : CursorDB) : PyResult (List J) :=
  match queryParsed db "aiService.prompts" with
  | none => pure []
  | some none => pure []
  | some (some data) => do
    let items ← pyIter data
    pure (items.filterMap (fun p =>
      match p with
      | J.obj kvs =>
        if pyTruthy (dictGetD kvs "text" J.null) then
          some (dictGetD kvs "text" (J.str ""))
        else none
      | _ => none))

/-- `_read_generations`: the dict entries of `aiService.generations`; an
unreadable or corrupt key yields none. -/
def readGenerations (db : CursorDB) : PyResult (List Dict) :=
  match queryParsed db "aiService.generations" with
  | none => pure []
  | some none => pure []
  | some (some data) => do
    let items ← pyIter data
    pure (items.filterMap (fun g =>
      match g with
      | J.obj kvs => some kvs
      | _ => none))

/-- The Cursor on-disk state visible to `get_session_messages`: the
workspace databases that exist (by hash directory name), and the global
storage database when its file exists. -/
structure CursorFS where
  workspaces : List (String × CursorDB)
  globalDb : Option CursorDB

/-- The composer-search loop of `_get_workspace_messages`: first composer
dict whose `composerId` equals the target; a non-dict entry raises
`AttributeError` at `comp.get`. -/
def findComposer : List J → String → PyResult (Option Dict)
  | [], _ => pure none
  | c :: rest, cid => do
    let kvs ← asDict c
    if jEqStr (dictGetD kvs "composerId" J.null) cid then pure (some kvs)
    else findComposer rest cid

/-- `_get_workspace_messages` in `backends/cursor.py`. -/
def getWorkspaceMessages (fs : CursorFS) (wsHash composerId : String) :
    PyResult (List Message) :=
  match fs.workspaces.find? (fun kv => kv.1 = wsHash) with
  | none => pure []
  | some wdb =>
    match queryParsed wdb.2 "composer.composerData" with
    | none => pure []
    | some none => pure []
    | some (some data) => do
      let dataD ← asDict data
      let comps ← pyIter (dictGetD dataD "allComposers" (J.arr []))
      let target ← findComposer comps composerId
      match target with
      | none => pure []
      | some comp => do
        let startMs := dictGetD comp "createdAt" J.null
        let endMs := dictGetD comp "lastUpdatedAt" J.null
        let prompts ← readPrompts wdb.2
        let gens ← readGenerations wdb.2
        getWorkspaceMessagesCore prompts gens startMs endMs

/-- The tab-search loop of `_get_global_messages`: the first tab whose
`tabId` matches is mapped bubble by bubble (`user` bubbles keep role
`user`, everything else becomes `assistant`); no matching tab yields no
messages. -/
def findTabMessages : List J → String → PyResult (List Message)
  | [], _ => pure []
  | t :: rest, tid => do
    let kvs ← asDict t
    if !(jEqStr (dictGetD kvs "tabId" J.null) tid) then findTabMessages rest tid
    else do
      let bubbles ← pyIter (dictGetD kvs "bubbles" (J.arr []))
      bubbles.mapM (fun bubble => do
        let bk ← asDict bubble
        let bubbleType := dictGetD bk "type" (J.str "")
        let text := dictGetD bk "text" (J.str "")
        pure { role := J.str (if jEqStr bubbleType "user" then "user" else "assistant"),
               content := text, message_type := "text" })

/-- `_get_global_messages` in `backends/cursor.py`. -/
def getGlobalMessages (fs : CursorFS) (tabId : String) : PyResult (List Message) :=
  match fs.globalDb with
  | none => pure []
  | some db =>
    match queryParsed db "workbench.panel.aichat.view.aichat.chatdata" with
    | none => pure []
    | some none => pure []
    | some (some data) => do
      let dataD ← asDict data
      let tabs ← pyIter (dictGetD dataD "tabs" (J.arr []))
      findTabMessages tabs tabId

/-- `CursorProvider.get_session_messages`: the id must split (on the first
two colons) into `cursor`, a scope, and a local id; the `global` scope goes
to the global store, anything else to the named workspace database. -/
def cursorGetSessionMessages (fs : CursorFS) (sessionId : String) :
    PyResult (List Message) :=
  match pySplitCh sessionId ':' 2 with
  | [p0, p1, p2] =>
    if p0 ≠ "cursor" then pure []
    else if p1 = "global" then getGlobalMessages fs p2
    else getWorkspaceMessages fs p1 p2
  | _ => pure []



/-! ## Directory-Tree Decoder (`backends/opencode.py`) -/

/-- One pass of the part loop in `_parse_message_file`, threading the
mutable loop state `(content_parts, message_type, metadata)`: `text` parts
append truthy text; `tool` parts append a bracketed summary (with a compact
`k=v` rendering of scalar input fields) plus the fenced output, switch the
message type to `tool_call` and record the tool name; `patch` parts append
a placeholder and switch to `diff`; `step-start` parts are skipped; unknown
parts contribute any truthy `text` field. -/
def openPartsLoop : List J → (List J × String × List (String × J)) →
    PyResult (List J × String × List (String × J))
  | [], st => pure st
  | p :: rest, (cps, mt, md) => do
    let kvs ← asDict p
    let partType := dictGetD kvs "type" (J.str "text")
    if jEqStr partType "text" then
      let text := dictGetD kvs "text" (J.str "")
      openPartsLoop rest (cps ++ (if pyTruthy text then [text] else []), mt, md)
    else if jEqStr partType "tool" then do
      let toolName := dictGetD kvs "tool" (J.str "unknown")
      let state ← asDict (dictGetD kvs "state" (J.obj []))
      let toolInput := dictGetD state "input" (J.obj [])
      let toolOutput := dictGetD state "output" (J.str "")
      let summary1 := "[Tool: " ++ pyStrOf toolName ++ "]"
      let summary ←
        if pyTruthy toolInput then do
          let items ← asDict toolInput
          let inputSummary := String.intercalate ", " (items.filterMap (fun kv =>
            match kv.2 with
            | J.str s => if s ≠ "" then some (kv.1 ++ "=" ++ s) else none
            | J.num n => some (kv.1 ++ "=" ++ toString n)
            | J.bool b => some (kv.1 ++ "=" ++ (if b then "True" else "False"))
            | _ => none))
          pure (if inputSummary ≠ "" then
                  "[Tool: " ++ pyStrOf toolName ++ " (" ++ inputSummary ++ ")]"
                else summary1)
        else pure summary1
      let outParts := if pyTruthy toolOutput then
          [J.str ("```\n" ++ pyStrOf toolOutput ++ "\n```")] else []
      openPartsLoop rest (cps ++ [J.str summary] ++ outParts, "tool_call",
                          [("tool_name", toolName)])
    else if jEqStr partType "patch" then
      openPartsLoop rest (cps ++ [J.str "[Patch/Edit]"], "diff", md)
    else if jEqStr partType "step-start" then
      openPartsLoop rest (cps, mt, md)
    else
      let text := dictGetD kvs "text" (J.str "")
      openPartsLoop rest (cps ++ (if pyTruthy text then [text] else []), mt, md)

/-- `_parse_message_file` in `backends/opencode.py`, over the parsed message
descriptor, the file's stem, and the part store (message id to that
directory's parseable part files in name order; an absent entry is an absent
part directory, i.e. the legacy v1.0 schema).  When the parts produce no
content, the fallback applies: a truthy `summary.title` verbatim, else for
assistant messages a bracketed notice from the truthy `mode`/`finish`
fields, else the content stays the empty string. -/
def parseMessageFile (data : Dict) (stem : String)
    (partStore : List (String × List J)) : PyResult Message := do
  let msgId ←
    match dictGetD data "id" (J.str stem) with
    | J.str s => pure s
    | _ => Except.error "TypeError: unsupported path segment"
  let role := dictGetD data "role" (J.str "user")
  let timeData ← asDict (dictGetD data "time" (J.obj []))
  let timestamp ← msToDatetimeJ (dictGetD timeData "created" J.null)
  let st ←
    match (partStore.find? (fun kv => kv.1 = msgId)).map (fun kv => kv.2) with
    | none => pure ([], "text", [])
    | some ps => openPartsLoop ps ([], "text", [])
  let (contentParts, messageType, metadata) := st
  let content ← if contentParts.isEmpty then pure "" else joinStrs "\n" contentParts
  let content2 ←
    if content = "" then
      let summary :=
        match dictGetD data "summary" (J.obj []) with
        | J.obj kvs => kvs
        | _ => ([] : Dict)
      let title := dictGetD summary "title" (J.str "")
      if pyTruthy title then pure title
      else if jEqStr role "assistant" then
        let mode := dictGetD data "mode" (J.str "")
        let finish := dictGetD data "finish" (J.str "")
        if pyTruthy mode || pyTruthy finish then
          pure (J.str ("[" ++ String.intercalate ", "
            ((if pyTruthy mode then ["mode: " ++ pyStrOf mode] else []) ++
             (if pyTruthy finish then ["finish: " ++ pyStrOf finish] else [])) ++ "]"))
        else pure (J.str "")
      else pure (J.str "")
    else pure (J.str content)
  pure { role := role, content := content2, timestamp := timestamp,
         message_type := messageType, metadata := metadata }

/-- `_parse_session_file` in `backends/opencode.py`, over the parsed session
descriptor, the file stem, the project directory name, and the message count
the caller obtained by globbing the session's message directory. -/
def parseSessionFile (data : Dict) (stem parentName : String) (msgCount : Nat) :
    PyResult Session := do
  let sesId := pyStrOf (dictGetD data "id" (J.str stem))
  let title := dictGetD data "title" (J.str "Untitled")
  let directory := dictGetD data "directory" (J.str "")
  let timeData ← asDict (dictGetD data "time" (J.obj []))
  let created ← msToDatetimeJ (dictGetD timeData "created" J.null)
  let updated ← msToDatetimeJ (dictGetD timeData "updated" J.null)
  pure { id := "opencode:" ++ sesId, workspace_id := parentName, title := title,
         message_count := J.num (Int.ofNat msgCount), created := created,
         updated := updated, source := "opencode", project_path := directory }

/-- The sort key of the final `messages.sort(key=lambda m: m.timestamp or
datetime.min...)`: a missing timestamp sorts as `datetime.min` (epoch
milliseconds of year 1); an ISO-built timestamp cannot occur in this
decoder. -/
def msgSortKey (m : Message) : Int :=
  match m.timestamp with
  | some (DT.ms n) => n
  | some (DT.iso _) => -62135596800000
  | none => -62135596800000

/-- The OpenCode storage tree visible to `get_session_messages`: the message
directories that exist (session id to the parseable `msg_*.json` files in
name order, each with its stem), and the part directories (message id to
parseable `prt_*.json` files in name order). -/
structure OpenCodeFS where
  messageDirs : List (String × List (String × Dict))
  partDirs : List (String × List J)

/-- `OpenCodeProvider.get_session_messages`: the id must split on the first
colon into `opencode` and a session id; a missing message directory yields
no messages; otherwise every message file is parsed and the result sorted by
timestamp. -/
def opencodeGetSessionMessages (fs : OpenCodeFS) (sessionId : String) :
    PyResult (List Message) :=
  match pySplitCh sessionId ':' 1 with
  | [p0, p1] =>
    if p0 ≠ "opencode" then pure []
    else
      match fs.messageDirs.find? (fun kv => kv.1 = p1) with
      | none => pure []
      | some dir => do
        let msgs ← dir.2.mapM (fun sf => parseMessageFile sf.2 sf.1 fs.partDirs)
        pure (iSort msgSortKey msgs)
  | _ => pure []

/-! ## Log-stream session listing (`backends/claude_code.py`, sessions) -/

/-- One entry of `sessions-index.json` in `_read_project_sessions`: non-dict
entries and entries with a falsy `sessionId` are skipped; the title is the
first truthy of `firstPrompt`, `summary`, `"Untitled"`, cut to 80
characters. -/
def claudeSessionFromIndexEntry (entry : J) (projectDirName displayPath : String) :
    PyResult (Option Session) :=
  match entry with
  | J.obj kvs => do
    let sessionId := dictGetD kvs "sessionId" (J.str "")
    if !pyTruthy sessionId then pure none
    else do
      let t1 := dictGetD kvs "firstPrompt" J.null
      let tRaw := if pyTruthy t1 then t1 else
        (let t2 := dictGetD kvs "summary" J.null
         if pyTruthy t2 then t2 else J.str "Untitled")
      let title ←
        match tRaw with
        | J.str s => pure (pySlice s 80)
        | _ => Except.error "TypeError: unsupported slice"
      let created ← parseIso (dictGetD kvs "created" J.null)
      let modified ← parseIso (dictGetD kvs "modified" J.null)
      pure (some { id := "claude:" ++ projectDirName ++ ":" ++ pyStrOf sessionId,
                   workspace_id := projectDirName, title := J.str title,
                   message_count := dictGetD kvs "messageCount" (J.num 0),
                   created := created, updated := modified,
                   source := "claude_code",
                   project_path := dictGetD kvs "projectPath" (J.str displayPath) })
  | _ => pure none

/-- `_read_project_sessions` over the parsed `sessions-index.json` value:
anything but a list yields no sessions. -/
def readProjectSessions (data : J) (projectDirName displayPath : String) :
    PyResult (List Session) :=
  match data with
  | J.arr entries => do
    let opts ← entries.mapM (fun e =>
      claudeSessionFromIndexEntry e projectDirName displayPath)
    pure (opts.filterMap id)
  | _ => pure []

/-- `_extract_user_text`: string content verbatim; otherwise the `text` of
each text block and each bare string block, joined by newlines. -/
def extractUserText (entry : Dict) : PyResult String := do
  let msgData ← asDict (dictGetD entry "message" (J.obj []))
  let content := dictGetD msgData "content" (J.arr [])
  match content with
  | J.str s => pure s
  | other => do
    let blocks ← pyIter other
    joinStrs "\n" (blocks.filterMap (fun b =>
      match b with
      | J.obj kvs =>
        if jEqStr (dictGetD kvs "type" J.null) "text" then
          some (dictGetD kvs "text" (J.str ""))
        else none
      | J.str s => some (J.str s)
      | _ => none))

/-- The title scan of `_scan_jsonl_sessions`: the first `human`/`user` line
with truthy extracted text gives the title (cut to 80); otherwise
`"Untitled"`. -/
def scanTitle : List J → PyResult String
  | [] => pure "Untitled"
  | e :: rest => do
    let kvs ← asDict e
    if jEqStr (dictGetD kvs "type" J.null) "human" ||
       jEqStr (dictGetD kvs "type" J.null) "user" then do
      let text ← extractUserText kvs
      if text ≠ "" then pure (pySlice text 80) else scanTitle rest
    else scanTitle rest

/-- `_scan_jsonl_sessions` over the project's `.jsonl` files, each given by
its stem, its line count, and its parseable JSON lines. -/
def scanJsonlSessions (files : List (String × Nat × List J))
    (projectDirName displayPath : String) : PyResult (List Session) :=
  files.mapM (fun f => do
    let title ← scanTitle f.2.2
    pure { id := "claude:" ++ projectDirName ++ ":" ++ f.1,
           workspace_id := projectDirName, title := J.str title,
           message_count := J.num (Int.ofNat f.2.1), source := "claude_code",
           project_path := J.str displayPath })

/-- The Claude Code storage tree visible to `get_session_messages`: the
session files that exist, keyed by project directory name and session uuid,
each holding its parseable JSON lines. -/
structure ClaudeFS where
  files : List ((String × String) × List J)

/-- `ClaudeCodeProvider.get_session_messages`: the id must split (on the
first two colons) into `claude`, a project directory name and a session
uuid; a missing `.jsonl` file yields no messages. -/
def claudeGetSessionMessages (fs : ClaudeFS) (sessionId : String) :
    PyResult (List Message) :=
  match pySplitCh sessionId ':' 2 with
  | [p0, p1, p2] =>
    if p0 ≠ "claude" then pure []
    else
      match fs.files.find? (fun kv => kv.1.1 = p1 && kv.1.2 = p2) with
      | none => pure []
      | some f => parseJsonl f.2
  | _ => pure []

/-! ## Cursor session listing (`backends/cursor.py`, sessions) -/

/-- One composer of `_read_sessions_from_db`: a falsy `composerId` is
skipped; the title is the stripped composer name when truthy, else the
first prompt (or `"Untitled"`) truncated to 80 characters; the message
count estimates by the session's time range over all generations. -/
def cursorSessionOfComposer (comp : J) (wsHash displayPath : String)
    (prompts : List J) (gens : List Dict) : PyResult (Option Session) := do
  let kvs ← asDict comp
  let composerId := dictGetD kvs "composerId" (J.str "")
  if !pyTruthy composerId then pure none
  else do
    let name ←
      match dictGetD kvs "name" (J.str "") with
      | J.str s => pure (pyStrip s)
      | _ => Except.error "AttributeError: no attribute strip"
    let createdMs := dictGetD kvs "createdAt" J.null
    let updatedMs := dictGetD kvs "lastUpdatedAt" J.null
    let msgCount ← countMessagesInRange gens createdMs updatedMs
    let created ← msToDatetimeJ createdMs
    let updated ← msToDatetimeJ updatedMs
    let title ←
      if name ≠ "" then pure (J.str name)
      else
        match prompts.head? with
        | some (J.str p) => pure (J.str (pyTruncate p 80))
        | some _ => Except.error "TypeError: len of non-str"
        | none => pure (J.str (pyTruncate "Untitled" 80))
    pure (some { id := "cursor:" ++ wsHash ++ ":" ++ pyStrOf composerId,
                 workspace_id := wsHash, title := title,
                 message_count := J.num msgCount, created := created,
                 updated := updated, source := "cursor",
                 project_path := J.str displayPath })

/-- `_read_sessions_from_db` over one workspace database. -/
def readSessionsFromDb (db : CursorDB) (wsHash displayPath : String) :
    PyResult (List Session) :=
  match queryParsed db "composer.composerData" with
  | none => pure []
  | some none => pure []
  | some (some data) => do
    let dataD ← asDict data
    let composers ← pyIter (dictGetD dataD "allComposers" (J.arr []))
    let prompts ← readPrompts db
    let gens ← readGenerations db
    let opts ← composers.mapM (fun comp =>
      cursorSessionOfComposer comp wsHash displayPath prompts gens)
    pure (opts.filterMap id)

/-- The title loop of `_read_global_sessions`: the first `user` bubble's
text, truncated to 80 characters, else `"Chat"`. -/
def globalTitleOfBubbles : List J → PyResult J
  | [] => pure (J.str "Chat")
  | b :: rest => do
    let kvs ← asDict b
    if jEqStr (dictGetD kvs "type" J.null) "user" then
      match dictGetD kvs "text" (J.str "Chat") with
      | J.str t => pure (J.str (pyTruncate t 80))
      | _ => Except.error "TypeError: len of non-str"
    else globalTitleOfBubbles rest

/-- One tab of `_read_global_sessions`: a falsy `tabId` or falsy `bubbles`
is skipped; the message count is the number of bubbles. -/
def globalSessionOfTab (tab : J) : PyResult (Option Session) := do
  let kvs ← asDict tab
  let tabId := dictGetD kvs "tabId" (J.str "")
  let bubblesJ := dictGetD kvs "bubbles" (J.arr [])
  if !pyTruthy tabId || !pyTruthy bubblesJ then pure none
  else do
    let bubbles ← pyIter bubblesJ
    let title ← globalTitleOfBubbles bubbles
    pure (some { id := "cursor:global:" ++ pyStrOf tabId, workspace_id := "global",
                 title := title, message_count := J.num (Int.ofNat bubbles.length),
                 source := "cursor", project_path := J.str "(global)" })

/-- `_read_global_sessions` over the global chat store. -/
def readGlobalSessions (fs : CursorFS) : PyResult (List Session) :=
  match fs.globalDb with
  | none => pure []
  | some db =>
    match queryParsed db "workbench.panel.aichat.view.aichat.chatdata" with
    | none => pure []
    | some none => pure []
    | some (some data) => do
      let dataD ← asDict data
      let tabs ← pyIter (dictGetD dataD "tabs" (J.arr []))
      let opts ← tabs.mapM globalSessionOfTab
      pure (opts.filterMap id)

/-! ## Exporter (`export.py`) -/

/-- The rendering of a datetime used by the exporter.  `isoformat()` itself
is abstracted to an injective rendering; no stated property inspects the
rendered text, only that the field round-trips. -/
def dtIso : DT → String
  | .ms n => "epoch-ms:" ++ toString n
  | .iso s => s

/-- One entry of the `messages` array built by `session_to_json`. -/
def messageToJsonJ (m : Message) : J :=
  J.obj [("role", m.role), ("content", m.content),
         ("timestamp", match m.timestamp with
                       | some dt => J.str (dtIso dt)
                       | none => J.null),
         ("message_type", J.str m.message_type),
         ("metadata", J.obj m.metadata)]

/-- `session_to_json` in `export.py`: the JSON value handed to
`json.dumps` (serializing to text and re-parsing is the identity on this
value, which is the JSON library's contract). -/
def sessionToJson (s : Session) (messages : List Message) : J :=
  J.obj [("session", J.obj
           [("id", J.str s.id), ("title", s.title), ("source", J.str s.source),
            ("project_path", s.project_path), ("message_count", s.message_count),
            ("created", match s.created with
                        | some dt => J.str (dtIso dt)
                        | none => J.null),
            ("updated", match s.updated with
                        | some dt => J.str (dtIso dt)
                        | none => J.null)]),
         ("messages", J.arr (messages.map messageToJsonJ))]

/-- Parsing back one field of a JSON object (what a consumer of the
exported text sees after `json.loads`). -/
def jGet (j : J) (k : String) : Option J :=
  match j with
  | J.obj kvs => (kvs.find? (fun kv => kv.1 = k)).map (fun kv => kv.2)
  | _ => none



/-- A value that is JSON `null` or an integer — the timestamp/bound shapes
all stated range properties assume. -/
def isNullOrNum : J → Bool
  | .null => true
  | .num _ => true
  | _ => false

/-- The pure inclusive-range predicate the bound checks compute on
well-shaped values: a generation passes exactly when it carries an integer
`unixMs` that every present bound admits (absent bounds are open-ended). -/
def inRangeB (startMs endMs : J) (g : Dict) : Bool :=
  match dictGetD g "unixMs" J.null with
  | J.num n =>
    (match startMs with
     | J.num s => decide (s ≤ n)
     | _ => true) &&
    (match endMs with
     | J.num e => decide (n ≤ e)
     | _ => true)
  | _ => false



/-- A composer-typed generation fixture at timestamp 10 with a summary. -/
def c10Gen1 : Dict :=
  [("type", J.str "composer"), ("unixMs", J.num 10), ("textDescription", J.str "did stuff")]

/-- A non-composer generation fixture at timestamp 20. -/
def c10Gen2 : Dict := [("type", J.str "chat"), ("unixMs", J.num 20)]

/-- Two in-range generations, one composer-typed and one not. -/
def c10Gens : List Dict := [c10Gen1, c10Gen2]

/-- The single assistant message `c10Gens` reconstructs to. -/
def c10Msg : Message :=
  { role := J.str "assistant", content := J.str "did stuff",
    timestamp := some (DT.ms 10), message_type := "text" }

/-- Two prompts: the first is consumed by the interleave, the second is left
over. -/
def c3Prompts : List J := [J.str "first prompt", J.str "second prompt"]

/-- The reconstruction of `c3Prompts` against the single composer generation
`c10Gen1`: interleaved prompt, assistant summary, then the leftover prompt
with no timestamp. -/
def c3Msgs : List Message :=
  [{ role := J.str "user", content := J.str "first prompt",
     timestamp := some (DT.ms 10), message_type := "text" },
   { role := J.str "assistant", content := J.str "did stuff",
     timestamp := some (DT.ms 10), message_type := "text" },
   { role := J.str "user", content := J.str "second prompt",
     timestamp := none, message_type := "text" }]

/-- A generation exactly at a session's lower bound. -/
def c2GenAtStart : Dict := [("unixMs", J.num 0)]

/-- A generation exactly at a session's upper bound. -/
def c2GenAtEnd : Dict := [("unixMs", J.num 10)]

/-- A generation carrying no timestamp. -/
def c2GenNoTs : Dict := [("textDescription", J.str "orphan")]



/-- An export fixture session. -/
def c9Session : Session :=
  { id := "cursor:h:1", workspace_id := "h", title := J.str "T",
    message_count := J.num 2, source := "cursor", project_path := J.str "/p" }

/-- An export fixture message list. -/
def c9Msgs : List Message :=
  [{ role := J.str "user", content := J.str "q" },
   { role := J.str "assistant", content := J.str "a" }]



/-- An 81-character title, longer than the claimed 80-character cap. -/
def c5LongTitle : String := String.mk (List.replicate 81 'x')

/-- A one-entry `sessions-index.json` fixture. -/
def c5IndexData : J :=
  J.arr [J.obj [("sessionId", J.str "abc"),
                ("firstPrompt", J.str "hello there, can you fix my build")]]



/-- A workspace database whose composer list holds a non-dict entry. -/
def c6BadDb : CursorDB :=
  ⟨[("composer.composerData", some (J.obj [("allComposers", J.arr [J.num 42])]))]⟩

/-- A Cursor store holding only `c6BadDb` under hash `w`. -/
def c6BadFS : CursorFS := ⟨[("w", c6BadDb)], none⟩

/-- A workspace database with one well-formed composer, id `other`. -/
def c6OtherDb : CursorDB :=
  ⟨[("composer.composerData",
     some (J.obj [("allComposers",
                   J.arr [J.obj [("composerId", J.str "other")]])]))]⟩

/-- A Cursor store holding only `c6OtherDb` under hash `w`. -/
def c6OtherFS : CursorFS := ⟨[("w", c6OtherDb)], none⟩


/-! ## Theorems -/

/-- C7: Log-Stream Decoder: a `user`/`human` record whose message content is
a plain string decodes to no message when the string is blank, and to
exactly one `user`/`text` message carrying the string verbatim when it is
not.  Stated at `_parse_user_entry`, which receives the record and its
parsed timestamp. -/
theorem C7_user_string_content (entry : Dict) (md : Dict) (s : String) (ts : Option DT)
    (hmd : dictGetD entry "message" (J.obj []) = J.obj md)
    (hc : dictGetD md "content" (J.arr []) = J.str s) :
    parseUserEntry entry ts =
      .ok (if pyNonBlank s
           then [{ role := J.str "user", content := J.str s, timestamp := ts }]
           else []) := by
  unfold parseUserEntry
  rw [hmd]
  simp only [asDict, bind, Except.bind]
  rw [hc]
  by_cases h : pyNonBlank s
  · simp [h]; rfl
  · simp [h]; rfl

/-- C7 witness: a non-blank string gives exactly the one verbatim user
message; a whitespace-only string gives none. -/
theorem C7_user_string_content_witness :
    parseUserEntry [("message", J.obj [("content", J.str "hi")])] none =
      .ok [{ role := J.str "user", content := J.str "hi", timestamp := none }] ∧
    parseUserEntry [("message", J.obj [("content", J.str " \n ")])] none = .ok [] := by
  constructor
  · exact (C7_user_string_content [("message", J.obj [("content", J.str "hi")])]
      [("content", J.str "hi")] "hi" none rfl rfl).trans (by rfl)
  · exact (C7_user_string_content [("message", J.obj [("content", J.str " \n ")])]
      [("content", J.str " \n ")] " \n " none rfl rfl).trans (by rfl)

/-- C8 counterexample: decoding an inert-type record is not exception-free
for every record: a `progress` record whose `timestamp` field is a (truthy)
number reaches `value.endswith` in `_parse_iso` and raises
`AttributeError`, which no caller catches — so, as stated, the claim fails. -/
theorem C8_counterexample :
    entryToMessages [("type", J.str "progress"), ("timestamp", J.num 5)] =
      .error "AttributeError: no attribute endswith" := rfl

/-- C8 amended: a record of inert or unknown type (anything but
`user`/`human`/`assistant`) yields exactly zero messages and does not raise,
provided its `timestamp` field — parsed before the type dispatch — is a
string or falsy (absent, `null`, `0`, `false`, empty containers). -/
theorem C8_inert_types_no_messages (entry : Dict)
    (hu : jEqStr (dictGetD entry "type" (J.str "")) "user" = false)
    (hh : jEqStr (dictGetD entry "type" (J.str "")) "human" = false)
    (ha : jEqStr (dictGetD entry "type" (J.str "")) "assistant" = false)
    (hts : (∃ s, dictGetD entry "timestamp" J.null = J.str s) ∨
           pyTruthy (dictGetD entry "timestamp" J.null) = false) :
    entryToMessages entry = .ok [] := by
  have hiso : ∃ o, parseIso (dictGetD entry "timestamp" J.null) = .ok o := by
    rcases hts with ⟨s, hs⟩ | hf
    · rw [hs]; unfold parseIso
      by_cases h : pyTruthy (J.str s) = false
      · exact ⟨none, by simp [h]⟩
      · exact ⟨fromIsoformat (if s.toList.getLast? == some 'Z'
            then String.mk s.toList.dropLast ++ "+00:00" else s),
          by rw [if_neg h]⟩
    · exact ⟨none, by unfold parseIso; simp [hf]⟩
  obtain ⟨o, ho⟩ := hiso
  unfold entryToMessages
  rw [ho]
  simp only [bind, Except.bind]
  by_cases hi : inertEntryTypes.any (fun t => jEqStr (dictGetD entry "type" (J.str "")) t)
  · simp [hi]; rfl
  · simp [hi, hu, hh, ha]; rfl

/-- C8 witness: an inert `file-history-snapshot` record with a string
timestamp, and an unknown-type record with no timestamp, both decode to no
messages. -/
theorem C8_inert_types_no_messages_witness :
    entryToMessages [("type", J.str "file-history-snapshot"),
                     ("timestamp", J.str "2025-01-01T00:00:00Z")] = .ok [] ∧
    entryToMessages [("type", J.str "mystery-type")] = .ok [] := by
  constructor
  · exact C8_inert_types_no_messages _ (by decide) (by decide) (by decide)
      (Or.inl ⟨"2025-01-01T00:00:00Z", rfl⟩)
  · exact C8_inert_types_no_messages _ (by decide) (by decide) (by decide)
      (Or.inr (by decide))


/-- Helper: the text accumulated by one assistant block step is exactly the
block's non-blank text, when the step does not raise. -/
lemma assistantStep_ok_texts (ts : Option DT) (b : J) (ms : List Message) (texts : List String)
    (h : assistantStep ts b = .ok (ms, texts)) :
    texts = assistantTexts [b] := by
  cases b with
  | obj kvs =>
    simp only [assistantStep] at h
    simp only [assistantTexts, assistantTextOfBlock, List.filterMap_cons, List.filterMap_nil]
    by_cases h1 : jEqStr (dictGetD kvs "type" (J.str "")) "text" = true
    · rw [if_pos h1] at h
      rw [if_pos h1]
      split at h
      · rename_i t ht
        simp only [pure, Except.pure, Except.ok.injEq, Prod.mk.injEq] at h
        obtain ⟨hms, hts⟩ := h
        subst hts
        by_cases hb : pyNonBlank t = true <;> simp [hb]
      · exact absurd h (by simp)
    · rw [if_neg h1] at h
      rw [if_neg h1]
      by_cases h2 : jEqStr (dictGetD kvs "type" (J.str "")) "tool_use" = true
      · rw [if_pos h2] at h
        cases hm : toolUseMessage ts kvs with
        | error e => rw [hm] at h; exact absurd h (by simp [bind, Except.bind])
        | ok m =>
          rw [hm] at h
          simp only [bind, Except.bind, pure, Except.pure, Except.ok.injEq, Prod.mk.injEq] at h
          exact h.2.symm
      · rw [if_neg h2] at h
        by_cases h3 : jEqStr (dictGetD kvs "type" (J.str "")) "thinking" = true
        · rw [if_pos h3] at h
          split at h
          · rename_i t ht
            simp only [pure, Except.pure, Except.ok.injEq, Prod.mk.injEq] at h
            exact h.2.symm
          · exact absurd h (by simp)
        · rw [if_neg h3] at h
          simp only [pure, Except.pure, Except.ok.injEq, Prod.mk.injEq] at h
          exact h.2.symm
  | null =>
    simp only [assistantStep, pure, Except.pure, Except.ok.injEq, Prod.mk.injEq] at h
    simp [assistantTexts, assistantTextOfBlock, h.2.symm]
  | bool b =>
    simp only [assistantStep, pure, Except.pure, Except.ok.injEq, Prod.mk.injEq] at h
    simp [assistantTexts, assistantTextOfBlock, h.2.symm]
  | num n =>
    simp only [assistantStep, pure, Except.pure, Except.ok.injEq, Prod.mk.injEq] at h
    simp [assistantTexts, assistantTextOfBlock, h.2.symm]
  | str s =>
    simp only [assistantStep, pure, Except.pure, Except.ok.injEq, Prod.mk.injEq] at h
    simp [assistantTexts, assistantTextOfBlock, h.2.symm]
  | arr xs =>
    simp only [assistantStep, pure, Except.pure, Except.ok.injEq, Prod.mk.injEq] at h
    simp [assistantTexts, assistantTextOfBlock, h.2.symm]

/-- Helper: `assistantTexts` distributes over an initial block. -/
lemma assistantTexts_cons (b : J) (rest : List J) :
    assistantTexts (b :: rest) = assistantTexts [b] ++ assistantTexts rest := by
  cases h : assistantTextOfBlock b <;>
    simp [assistantTexts, List.filterMap_cons, h]

/-- Helper: the texts accumulated by the assistant block loop are exactly
the non-blank texts of the record's text blocks, in order. -/
lemma blockFold_assistant_texts (ts : Option DT) :
    ∀ (blocks : List J) (ms : List Message) (texts : List String),
      blockFold (assistantStep ts) blocks = .ok (ms, texts) → texts = assistantTexts blocks := by
  intro blocks
  induction blocks with
  | nil =>
    intro ms texts h
    simp only [blockFold, pure, Except.pure, Except.ok.injEq, Prod.mk.injEq] at h
    simp [assistantTexts, h.2.symm]
  | cons b rest ih =>
    intro ms texts h
    simp only [blockFold, bind, Except.bind] at h
    cases h1 : assistantStep ts b with
    | error e => rw [h1] at h; exact absurd h (by simp)
    | ok p =>
      rw [h1] at h
      obtain ⟨m1, t1⟩ := p
      cases h2 : blockFold (assistantStep ts) rest with
      | error e => rw [h2] at h; exact absurd h (by simp)
      | ok q =>
        rw [h2] at h
        obtain ⟨m2, t2⟩ := q
        simp only [pure, Except.pure, Except.ok.injEq, Prod.mk.injEq] at h
        have e1 := assistantStep_ok_texts ts b m1 t1 h1
        have e2 := ih m2 t2 h2
        rw [← h.2, e1, e2, assistantTexts_cons b rest]

/-- Helper: a non-blank text block contributes a text. -/
lemma assistantTextOfBlock_of_nonBlank (b : J) (hb : isNonBlankTextBlock b = true) :
    ∃ t, assistantTextOfBlock b = some t := by
  cases b with
  | obj kvs =>
    simp only [isNonBlankTextBlock, Bool.and_eq_true] at hb
    obtain ⟨h1, h2⟩ := hb
    cases hf : dictGetD kvs "text" (J.str "") with
    | str t =>
      simp only [hf] at h2
      exact ⟨t, by simp [assistantTextOfBlock, h1, hf, h2]⟩
    | null => rw [hf] at h2; exact absurd h2 (by simp)
    | bool x => rw [hf] at h2; exact absurd h2 (by simp)
    | num x => rw [hf] at h2; exact absurd h2 (by simp)
    | arr x => rw [hf] at h2; exact absurd h2 (by simp)
    | obj x => rw [hf] at h2; exact absurd h2 (by simp)
  | null => simp [isNonBlankTextBlock] at hb
  | bool x => simp [isNonBlankTextBlock] at hb
  | num x => simp [isNonBlankTextBlock] at hb
  | str x => simp [isNonBlankTextBlock] at hb
  | arr x => simp [isNonBlankTextBlock] at hb

/-- Helper: a record with a non-blank text block accumulates some text. -/
lemma assistantTexts_ne_nil (blocks : List J) (b : J) (hb : b ∈ blocks)
    (ht : isNonBlankTextBlock b = true) : assistantTexts blocks ≠ [] := by
  obtain ⟨t, htf⟩ := assistantTextOfBlock_of_nonBlank b ht
  intro hnil
  have hmem : t ∈ assistantTexts blocks := List.mem_filterMap.mpr ⟨b, hb, htf⟩
  rw [hnil] at hmem
  exact absurd hmem (List.not_mem_nil t)

/-- C4 counterexample: an assistant record whose content has a text block
(whitespace-only) and a `tool_use` block, yet whose decoded output starts
with the `tool_call` message and contains no combined text message at all —
position 0 is not a text message, so the claim fails as stated. -/
theorem C4_counterexample :
    parseAssistantEntry
      [("message", J.obj [("content", J.arr
        [J.obj [("type", J.str "text"), ("text", J.str "   ")],
         J.obj [("type", J.str "tool_use"), ("name", J.str "Bash"), ("input", J.obj [])]])])] none =
    .ok [{ role := J.str "tool", content := J.str "Bash", timestamp := none,
           message_type := "tool_call",
           metadata := [("tool_name", J.str "Bash"), ("file_path", J.str ""),
                        ("tool_use_id", J.str "")] }] := rfl

/-- C4 amended: for every assistant record whose content array contains at
least one text block with non-blank text and at least one `tool_use` block,
and which decodes without raising, the non-blank texts are combined into a
single `assistant`/`text` message placed at position 0 of the record's
output, preceding every `tool_call` message derived from the record's
`tool_use` blocks. -/
theorem C4_text_precedes_tools (entry : Dict) (md : Dict) (blocks : List J)
    (ts : Option DT) (msgs : List Message)
    (hmd : dictGetD entry "message" (J.obj []) = J.obj md)
    (hc : dictGetD md "content" (J.arr []) = J.arr blocks)
    (htext : ∃ b ∈ blocks, isNonBlankTextBlock b = true)
    (_htool : ∃ b ∈ blocks, isToolUseBlock b = true)
    (h : parseAssistantEntry entry ts = .ok msgs) :
    msgs.head? = some { role := J.str "assistant",
                        content := J.str (String.intercalate "\n" (assistantTexts blocks)),
                        timestamp := ts } ∧
    (∀ i m, msgs.get? i = some m → m.message_type = "tool_call" → 1 ≤ i) := by
  unfold parseAssistantEntry at h
  rw [hmd] at h
  simp only [asDict, bind, Except.bind] at h
  rw [hc] at h
  simp only [pyIter, bind, Except.bind] at h
  cases hbf : blockFold (assistantStep ts) blocks with
  | error e => rw [hbf] at h; exact absurd h (by simp)
  | ok p =>
    rw [hbf] at h
    obtain ⟨bms, texts⟩ := p
    have htexts := blockFold_assistant_texts ts blocks bms texts hbf
    obtain ⟨b, hbmem, hbt⟩ := htext
    have hne : texts ≠ [] := htexts ▸ assistantTexts_ne_nil blocks b hbmem hbt
    have hne2 : texts.isEmpty = false := by
      cases texts with
      | nil => exact absurd rfl hne
      | cons a l => rfl
    simp only [] at h
    rw [hne2] at h
    simp only [Bool.false_eq_true, if_false, pure, Except.pure, Except.ok.injEq] at h
    subst htexts
    constructor
    · rw [← h]
      rfl
    · intro i m hm hmt
      rw [← h] at hm
      cases i with
      | zero =>
        simp only [List.get?] at hm
        cases hm
        have hne3 : ("text" : String) ≠ "tool_call" := by decide
        exact absurd hmt hne3
      | succ n => omega

/-- C4 witness: for a record with a non-blank text block and a `tool_use`
block, the combined text message occupies position 0 and the `tool_call`
message follows it. -/
theorem C4_text_precedes_tools_witness :
    parseAssistantEntry c4Entry none = .ok c4Out ∧
    (∀ i m, c4Out.get? i = some m → m.message_type = "tool_call" → 1 ≤ i) := by
  have h := C4_text_precedes_tools c4Entry
    [("content", J.arr [c4Block1, c4Block2])] [c4Block1, c4Block2] none c4Out rfl rfl
    ⟨c4Block1, by simp, rfl⟩ ⟨c4Block2, by simp, rfl⟩ rfl
  exact ⟨rfl, h.2⟩

lemma mem_oInsert {α : Type} (key : α → Int) (a x : α) :
    ∀ l, x ∈ oInsert key a l ↔ x = a ∨ x ∈ l := by
  intro l
  induction l with
  | nil => simp [oInsert]
  | cons b l ih =>
    simp only [oInsert]
    by_cases h : key a ≤ key b
    · simp [h, List.mem_cons]
    · simp only [h, if_false, List.mem_cons, ih]
      tauto

/-- Helper: the stable sort permutes, so membership is preserved. -/
lemma mem_iSort {α : Type} (key : α → Int) (x : α) :
    ∀ l, x ∈ iSort key l ↔ x ∈ l := by
  intro l
  induction l with
  | nil => simp [iSort]
  | cons b l ih =>
    simp only [iSort, mem_oInsert, ih, List.mem_cons]

/-- Helper: ordered insertion preserves key-sortedness. -/
lemma oInsert_pairwise {α : Type} (key : α → Int) (a : α) :
    ∀ l, List.Pairwise (fun x y => key x ≤ key y) l →
      List.Pairwise (fun x y => key x ≤ key y) (oInsert key a l) := by
  intro l
  induction l with
  | nil => intro _; simp [oInsert]
  | cons b l ih =>
    intro hp
    rw [List.pairwise_cons] at hp
    obtain ⟨hb, hl⟩ := hp
    simp only [oInsert]
    by_cases h : key a ≤ key b
    · rw [if_pos h]
      refine List.Pairwise.cons ?_ (List.Pairwise.cons hb hl)
      intro x hx
      rcases List.mem_cons.mp hx with rfl | hx
      · exact h
      · exact le_trans h (hb x hx)
    · rw [if_neg h]
      refine List.Pairwise.cons ?_ (ih hl)
      intro x hx
      rcases (mem_oInsert key a x l).mp hx with rfl | hx
      · exact le_of_not_le h
      · exact hb x hx

/-- Helper: the stable sort is key-sorted. -/
lemma iSort_pairwise {α : Type} (key : α → Int) :
    ∀ l, List.Pairwise (fun x y => key x ≤ key y) (iSort key l) := by
  intro l
  induction l with
  | nil => simp [iSort]
  | cons b l ih => exact oInsert_pairwise key b (iSort key l) ih

/-- Helper: filtering commutes with inserting a kept element into a sorted
list. -/
lemma filter_oInsert_pos {α : Type} (key : α → Int) (p : α → Bool) (a : α)
    (hpa : p a = true) :
    ∀ l, List.Pairwise (fun x y => key x ≤ key y) l →
      (oInsert key a l).filter p = oInsert key a (l.filter p) := by
  intro l
  induction l with
  | nil => intro _; simp [oInsert, List.filter, hpa]
  | cons b l ih =>
    intro hp
    rw [List.pairwise_cons] at hp
    obtain ⟨hb, hl⟩ := hp
    simp only [oInsert]
    by_cases h : key a ≤ key b
    · rw [if_pos h]
      cases hpb : p b with
      | true =>
        simp only [List.filter_cons, hpa, hpb, if_true]
        simp [oInsert, h]
      | false =>
        simp only [List.filter_cons, hpa, hpb]
        simp only [if_true, Bool.false_eq_true, if_false]
        -- goal: a :: l.filter p = oInsert key a (l.filter p)
        cases hf : l.filter p with
        | nil => simp [oInsert]
        | cons c m =>
          have hc : c ∈ l.filter p := by rw [hf]; exact List.mem_cons_self c m
          have hcl : c ∈ l := (List.mem_filter.mp hc).1
          have : key a ≤ key c := le_trans h (hb c hcl)
          simp [oInsert, this]
    · rw [if_neg h]
      cases hpb : p b with
      | true =>
        simp only [List.filter_cons, hpa, hpb, if_true]
        rw [ih hl]
        simp [oInsert, h]
      | false =>
        simp only [List.filter_cons, hpb]
        simp only [Bool.false_eq_true, if_false]
        exact ih hl

/-- Helper: filtering drops an inserted element that fails the predicate. -/
lemma filter_oInsert_neg {α : Type} (key : α → Int) (p : α → Bool) (a : α)
    (hpa : p a = false) :
    ∀ l, (oInsert key a l).filter p = l.filter p := by
  intro l
  induction l with
  | nil => simp [oInsert, List.filter, hpa]
  | cons b l ih =>
    simp only [oInsert]
    by_cases h : key a ≤ key b
    · rw [if_pos h]
      simp [List.filter_cons, hpa]
    · rw [if_neg h]
      simp only [List.filter_cons]
      rw [ih]

/-- Helper: filtering commutes with the stable sort — the commutation the
composer-type filter after the timestamp sort relies on. -/
lemma filter_iSort {α : Type} (key : α → Int) (p : α → Bool) :
    ∀ l, (iSort key l).filter p = iSort key (l.filter p) := by
  intro l
  induction l with
  | nil => simp [iSort]
  | cons b l ih =>
    simp only [iSort]
    cases hpb : p b with
    | true =>
      rw [filter_oInsert_pos key p b hpb (iSort key l) (iSort_pairwise key l), ih]
      simp [List.filter_cons, hpb, iSort]
    | false =>
      rw [filter_oInsert_neg key p b hpb (iSort key l), ih]
      simp [List.filter_cons, hpb]

/-- Helper: on well-shaped bounds and timestamps the bound checks compute
the pure inclusive-range predicate without raising. -/
lemma genInRange_wt (startMs endMs : J) (g : Dict)
    (hs : isNullOrNum startMs = true) (he : isNullOrNum endMs = true)
    (hg : isNullOrNum (dictGetD g "unixMs" J.null) = true) :
    genInRange startMs endMs g = .ok (inRangeB startMs endMs g) := by
  unfold genInRange inRangeB
  cases hts : dictGetD g "unixMs" J.null with
  | null => rfl
  | num n =>
    cases startMs with
    | null =>
      cases endMs with
      | null => simp [pyCmpLe, toPyNum, bind, Except.bind, pure, Except.pure]
      | num e =>
        simp only [pyCmpLe, toPyNum, bind, Except.bind, pure, Except.pure]
        by_cases hle : n ≤ e
        · simp [hle]
        · simp [hle]
      | bool b => simp [isNullOrNum] at he
      | str s => simp [isNullOrNum] at he
      | arr xs => simp [isNullOrNum] at he
      | obj kvs => simp [isNullOrNum] at he
    | num s =>
      cases endMs with
      | null =>
        simp only [pyCmpLe, toPyNum, bind, Except.bind, pure, Except.pure]
        by_cases hle : s ≤ n
        · simp [hle]
        · simp [hle]
      | num e =>
        simp only [pyCmpLe, toPyNum, bind, Except.bind, pure, Except.pure]
        by_cases h1 : s ≤ n
        · by_cases h2 : n ≤ e
          · simp [h1, h2]
          · simp [h1, h2]
        · by_cases h2 : n ≤ e
          · simp [h1, h2]
          · simp [h1, h2]
      | bool b => simp [isNullOrNum] at he
      | str s2 => simp [isNullOrNum] at he
      | arr xs => simp [isNullOrNum] at he
      | obj kvs => simp [isNullOrNum] at he
    | bool b => simp [isNullOrNum] at hs
    | str s2 => simp [isNullOrNum] at hs
    | arr xs => simp [isNullOrNum] at hs
    | obj kvs => simp [isNullOrNum] at hs
  | bool b => rw [hts] at hg; simp [isNullOrNum] at hg
  | str s2 => rw [hts] at hg; simp [isNullOrNum] at hg
  | arr xs => rw [hts] at hg; simp [isNullOrNum] at hg
  | obj kvs => rw [hts] at hg; simp [isNullOrNum] at hg

/-- Helper: the in-range filter loop computes a plain `List.filter`. -/
lemma filterInRange_wt (startMs endMs : J)
    (hs : isNullOrNum startMs = true) (he : isNullOrNum endMs = true) :
    ∀ gens, (∀ g ∈ gens, isNullOrNum (dictGetD g "unixMs" J.null) = true) →
      filterInRange startMs endMs gens = .ok (gens.filter (inRangeB startMs endMs)) := by
  intro gens
  induction gens with
  | nil => intro _; rfl
  | cons g rest ih =>
    intro hwt
    have hg := hwt g (List.mem_cons_self g rest)
    have hrest := ih (fun x hx => hwt x (List.mem_cons_of_mem g hx))
    simp only [filterInRange, bind, Except.bind]
    rw [genInRange_wt startMs endMs g hs he hg, hrest]
    simp only [List.filter_cons]
    cases hb : inRangeB startMs endMs g <;> simp [hb, pure, Except.pure]

/-- Helper: `session_gens` is the sorted in-range filter. -/
lemma sessionGensOf_wt (startMs endMs : J) (gens : List Dict)
    (hs : isNullOrNum startMs = true) (he : isNullOrNum endMs = true)
    (hwt : ∀ g ∈ gens, isNullOrNum (dictGetD g "unixMs" J.null) = true) :
    sessionGensOf gens startMs endMs =
      .ok (iSort genSortKey (gens.filter (inRangeB startMs endMs))) := by
  unfold sessionGensOf
  rw [filterInRange_wt startMs endMs hs he gens hwt]
  rfl

/-- Helper: with at least one bound present, the count is the number of
in-range generations. -/
lemma count_wt (startMs endMs : J) (gens : List Dict)
    (hs : isNullOrNum startMs = true) (he : isNullOrNum endMs = true)
    (hwt : ∀ g ∈ gens, isNullOrNum (dictGetD g "unixMs" J.null) = true)
    (hnn : ¬(startMs = J.null ∧ endMs = J.null)) :
    countMessagesInRange gens startMs endMs =
      .ok (Int.ofNat ((gens.filter (inRangeB startMs endMs)).length)) := by
  have hflags : ∀ gs : List Dict, (∀ g ∈ gs, isNullOrNum (dictGetD g "unixMs" J.null) = true) →
      gs.mapM (genInRange startMs endMs) = .ok (gs.map (inRangeB startMs endMs)) := by
    intro gs
    induction gs with
    | nil => intro _; rfl
    | cons g rest ih =>
      intro hwt2
      rw [List.mapM_cons]
      rw [genInRange_wt startMs endMs g hs he (hwt2 g (List.mem_cons_self g rest))]
      rw [ih (fun x hx => hwt2 x (List.mem_cons_of_mem g hx))]
      rfl
  have hcount : ∀ gs : List Dict,
      ((gs.map (inRangeB startMs endMs)).count true) =
        (gs.filter (inRangeB startMs endMs)).length := by
    intro gs
    induction gs with
    | nil => rfl
    | cons g rest ih =>
      simp only [List.map_cons, List.filter_cons]
      cases hb : inRangeB startMs endMs g <;>
        simp [List.count_cons, hb, ih]
  unfold countMessagesInRange
  cases hgs : gens.isEmpty with
  | true =>
    have : gens = [] := List.isEmpty_iff.mp hgs
    subst this
    rfl
  | false =>
    simp only [Bool.false_eq_true, if_false]
    cases startMs with
    | null =>
      cases endMs with
      | null => exact absurd ⟨rfl, rfl⟩ hnn
      | num e =>
        simp only [bind, Except.bind]
        rw [hflags gens hwt]
        simp [pure, Except.pure, hcount gens]
      | bool b => simp [isNullOrNum] at he
      | str s => simp [isNullOrNum] at he
      | arr xs => simp [isNullOrNum] at he
      | obj kvs => simp [isNullOrNum] at he
    | num s =>
      cases endMs with
      | null =>
        simp only [bind, Except.bind]
        rw [hflags gens hwt]
        simp [pure, Except.pure, hcount gens]
      | num e =>
        simp only [bind, Except.bind]
        rw [hflags gens hwt]
        simp [pure, Except.pure, hcount gens]
      | bool b => simp [isNullOrNum] at he
      | str s2 => simp [isNullOrNum] at he
      | arr xs => simp [isNullOrNum] at he
      | obj kvs => simp [isNullOrNum] at he
    | bool b => simp [isNullOrNum] at hs
    | str s2 => simp [isNullOrNum] at hs
    | arr xs => simp [isNullOrNum] at hs
    | obj kvs => simp [isNullOrNum] at hs

/-- Helper: with both bounds absent the count short-circuits to the number
of all generations, timestamped or not. -/
lemma count_bothNull (gens : List Dict) :
    countMessagesInRange gens J.null J.null = .ok (Int.ofNat gens.length) := by
  unfold countMessagesInRange
  cases hgs : gens.isEmpty with
  | true =>
    have : gens = [] := List.isEmpty_iff.mp hgs
    subst this
    rfl
  | false => rfl

/-- Helper: the interleave loop consumes exactly one prompt per composer
generation while prompts remain, so the final cursor is the minimum of the
composer-generation count and the prompt count. -/
lemma interleave_idx (prompts : List J) :
    ∀ gens ms idxF idx0, idx0 ≤ prompts.length →
      interleaveLoop prompts gens idx0 = .ok (ms, idxF) →
      idxF = min (idx0 + gens.length) prompts.length := by
  intro gens
  induction gens with
  | nil =>
    intro ms idxF idx0 hle h
    simp only [interleaveLoop, pure, Except.pure, Except.ok.injEq, Prod.mk.injEq] at h
    have := h.2
    simp only [List.length_nil]
    omega
  | cons gen rest ih =>
    intro ms idxF idx0 hle h
    simp only [interleaveLoop, bind, Except.bind] at h
    cases hts : msToDatetimeJ (dictGetD gen "unixMs" J.null) with
    | error e => rw [hts] at h; exact absurd h (by simp)
    | ok ts =>
      rw [hts] at h
      cases hp : prompts.get? idx0 with
      | some p =>
        rw [hp] at h
        simp only [] at h
        cases hrec : interleaveLoop prompts rest (idx0 + 1) with
        | error e => rw [hrec] at h; exact absurd h (by simp)
        | ok q =>
          rw [hrec] at h
          obtain ⟨ms2, idxF2⟩ := q
          simp only [pure, Except.pure, Except.ok.injEq, Prod.mk.injEq] at h
          have hlt : idx0 < prompts.length := by
            by_contra hc
            rw [List.get?_eq_none.mpr (by omega)] at hp
            cases hp
          have hidx := ih ms2 idxF2 (idx0 + 1) (by omega) hrec
          have := h.2
          simp only [List.length_cons]
          omega
      | none =>
        rw [hp] at h
        simp only [] at h
        cases hrec : interleaveLoop prompts rest idx0 with
        | error e => rw [hrec] at h; exact absurd h (by simp)
        | ok q =>
          rw [hrec] at h
          obtain ⟨ms2, idxF2⟩ := q
          simp only [pure, Except.pure, Except.ok.injEq, Prod.mk.injEq] at h
          have hge : prompts.length ≤ idx0 := List.get?_eq_none.mp hp
          have hidx := ih ms2 idxF2 idx0 hle hrec
          have := h.2
          simp only [List.length_cons]
          omega

/-- Helper: reconstruction output only depends on the composer-typed
generations — deleting the others changes nothing. -/
lemma core_composer_only (prompts : List J) (gens : List Dict) (s e : J)
    (hs : isNullOrNum s = true) (he : isNullOrNum e = true)
    (hwt : ∀ g ∈ gens, isNullOrNum (dictGetD g "unixMs" J.null) = true) :
    getWorkspaceMessagesCore prompts gens s e =
      getWorkspaceMessagesCore prompts (gens.filter isComposerGen) s e := by
  have hwt2 : ∀ g ∈ gens.filter isComposerGen,
      isNullOrNum (dictGetD g "unixMs" J.null) = true :=
    fun g hg => hwt g (List.mem_filter.mp hg).1
  have h1 := sessionGensOf_wt s e gens hs he hwt
  have h2 := sessionGensOf_wt s e (gens.filter isComposerGen) hs he hwt2
  unfold getWorkspaceMessagesCore
  rw [h1, h2]
  simp only [bind, Except.bind]
  have hcg : (iSort genSortKey (gens.filter (inRangeB s e))).filter isComposerGen =
      (iSort genSortKey ((gens.filter isComposerGen).filter (inRangeB s e))).filter
        isComposerGen := by
    rw [filter_iSort, filter_iSort]
    rw [List.filter_filter, List.filter_filter, List.filter_filter]
    congr 1
    apply List.filter_congr
    intro a _
    cases hca : isComposerGen a <;> cases hra : inRangeB s e a <;> simp [hca, hra]
  rw [hcg]

/-- Helper: the range predicate in logical form: an integer timestamp that
every present bound admits inclusively; no timestamp, never in range. -/
lemma inRangeB_iff (s e : J) (g : Dict)
    (hs : isNullOrNum s = true) (he : isNullOrNum e = true) :
    inRangeB s e g = true ↔
      ∃ n : Int, dictGetD g "unixMs" J.null = J.num n ∧
        (s = J.null ∨ ∃ sv : Int, s = J.num sv ∧ sv ≤ n) ∧
        (e = J.null ∨ ∃ ev : Int, e = J.num ev ∧ n ≤ ev) := by
  unfold inRangeB
  cases hts : dictGetD g "unixMs" J.null with
  | num n =>
    constructor
    · intro h
      rw [Bool.and_eq_true] at h
      refine ⟨n, rfl, ?_, ?_⟩
      · cases s with
        | null => exact Or.inl rfl
        | num sv => exact Or.inr ⟨sv, rfl, by simpa using h.1⟩
        | bool b => simp [isNullOrNum] at hs
        | str x => simp [isNullOrNum] at hs
        | arr x => simp [isNullOrNum] at hs
        | obj x => simp [isNullOrNum] at hs
      · cases e with
        | null => exact Or.inl rfl
        | num ev => exact Or.inr ⟨ev, rfl, by simpa using h.2⟩
        | bool b => simp [isNullOrNum] at he
        | str x => simp [isNullOrNum] at he
        | arr x => simp [isNullOrNum] at he
        | obj x => simp [isNullOrNum] at he
    · rintro ⟨n2, hn2, h1, h2⟩
      cases hn2
      rw [Bool.and_eq_true]
      constructor
      · rcases h1 with rfl | ⟨sv, rfl, hsv⟩
        · rfl
        · simpa using hsv
      · rcases h2 with rfl | ⟨ev, rfl, hev⟩
        · rfl
        · simpa using hev
  | null =>
    simp only [Bool.false_eq_true, false_iff]
    rintro ⟨n, hn, -, -⟩
    exact J.noConfusion hn
  | bool b =>
    simp only [Bool.false_eq_true, false_iff]
    rintro ⟨n, hn, -, -⟩
    exact J.noConfusion hn
  | str x =>
    simp only [Bool.false_eq_true, false_iff]
    rintro ⟨n, hn, -, -⟩
    exact J.noConfusion hn
  | arr x =>
    simp only [Bool.false_eq_true, false_iff]
    rintro ⟨n, hn, -, -⟩
    exact J.noConfusion hn
  | obj x =>
    simp only [Bool.false_eq_true, false_iff]
    rintro ⟨n, hn, -, -⟩
    exact J.noConfusion hn

/-- C2 counterexample: a generation with no timestamp is attributed by the
session-listing count when both bounds are absent: `_count_messages_in_range`
short-circuits to `len(generations)` before any timestamp check, so one
timestamp-less generation counts as 1, where the claim requires 0. -/
theorem C2_counterexample :
    countMessagesInRange [([] : Dict)] J.null J.null = .ok 1 := rfl

/-- C2 amended: for well-shaped bounds and timestamps, (1) with at least one
bound present the session-listing count is exactly the number of in-range
generations; (2) with both bounds absent the count short-circuits to all
generations, timestamped or not; (3) message reconstruction draws exactly
the in-range generations (sorted), i.e. membership is range containment;
(4) in-range means: an integer timestamp admitted inclusively by every
present bound, the check on an absent bound skipped — a generation with no
timestamp is never in range. -/
theorem C2_time_range_attribution :
    (∀ (gens : List Dict) (s e : J),
       isNullOrNum s = true → isNullOrNum e = true →
       (∀ g ∈ gens, isNullOrNum (dictGetD g "unixMs" J.null) = true) →
       ¬(s = J.null ∧ e = J.null) →
       countMessagesInRange gens s e =
         .ok (Int.ofNat ((gens.filter (inRangeB s e)).length))) ∧
    (∀ gens : List Dict,
       countMessagesInRange gens J.null J.null = .ok (Int.ofNat gens.length)) ∧
    (∀ (gens : List Dict) (s e : J),
       isNullOrNum s = true → isNullOrNum e = true →
       (∀ g ∈ gens, isNullOrNum (dictGetD g "unixMs" J.null) = true) →
       sessionGensOf gens s e = .ok (iSort genSortKey (gens.filter (inRangeB s e))) ∧
       ∀ g, g ∈ iSort genSortKey (gens.filter (inRangeB s e)) ↔
         g ∈ gens ∧ inRangeB s e g = true) ∧
    (∀ (s e : J) (g : Dict),
       isNullOrNum s = true → isNullOrNum e = true →
       (inRangeB s e g = true ↔
         ∃ n : Int, dictGetD g "unixMs" J.null = J.num n ∧
           (s = J.null ∨ ∃ sv : Int, s = J.num sv ∧ sv ≤ n) ∧
           (e = J.null ∨ ∃ ev : Int, e = J.num ev ∧ n ≤ ev))) := by
  refine ⟨?_, ?_, ?_, ?_⟩
  · intro gens s e hs he hwt hnn
    exact count_wt s e gens hs he hwt hnn
  · intro gens
    exact count_bothNull gens
  · intro gens s e hs he hwt
    refine ⟨sessionGensOf_wt s e gens hs he hwt, ?_⟩
    intro g
    rw [mem_iSort, List.mem_filter]
  · intro s e g hs he
    exact inRangeB_iff s e g hs he

/-- C2 witness: bounds `[0,10]`: generations exactly at 0 and at 10 are
counted and reconstructed (inclusive bounds); the timestamp-less generation
is not. -/
theorem C2_time_range_attribution_witness :
    countMessagesInRange [c2GenAtStart, c2GenAtEnd, c2GenNoTs] (J.num 0) (J.num 10) =
      .ok 2 ∧
    sessionGensOf [c2GenAtStart, c2GenAtEnd, c2GenNoTs] (J.num 0) (J.num 10) =
      .ok [c2GenAtStart, c2GenAtEnd] ∧
    inRangeB (J.num 0) (J.num 10) c2GenAtStart = true ∧
    inRangeB (J.num 0) (J.num 10) c2GenNoTs = false := by
  have hwt : ∀ g ∈ [c2GenAtStart, c2GenAtEnd, c2GenNoTs],
      isNullOrNum (dictGetD g "unixMs" J.null) = true := by
    intro g hg
    simp only [List.mem_cons, List.not_mem_nil, or_false] at hg
    rcases hg with rfl | rfl | rfl <;> rfl
  have h1 := C2_time_range_attribution.1 [c2GenAtStart, c2GenAtEnd, c2GenNoTs]
    (J.num 0) (J.num 10) rfl rfl hwt (by rintro ⟨h, -⟩; exact J.noConfusion h)
  have h3 := (C2_time_range_attribution.2.2.1 [c2GenAtStart, c2GenAtEnd, c2GenNoTs]
    (J.num 0) (J.num 10) rfl rfl hwt).1
  exact ⟨h1.trans (by rfl), h3.trans (by rfl), rfl, rfl⟩

/-- C3: after the interleave consumes one prompt per composer generation,
every remaining prompt of the global list is appended at the end of the
output, in original order, as a user-role text message with no timestamp
(`leftoverMessages` maps the dropped suffix with `timestamp := none`). -/
theorem C3_leftover_prompts (prompts : List J) (gens : List Dict) (s e : J)
    (msgs : List Message)
    (h : getWorkspaceMessagesCore prompts gens s e = .ok msgs) :
    ∃ sg front, sessionGensOf gens s e = .ok sg ∧
      msgs = front ++
        leftoverMessages prompts (min ((sg.filter isComposerGen).length) prompts.length) := by
  unfold getWorkspaceMessagesCore at h
  simp only [bind, Except.bind] at h
  cases hsg : sessionGensOf gens s e with
  | error ex => rw [hsg] at h; exact absurd h (by simp)
  | ok sg =>
    rw [hsg] at h
    simp only [] at h
    cases hil : interleaveLoop prompts (sg.filter isComposerGen) 0 with
    | error ex => rw [hil] at h; exact absurd h (by simp)
    | ok q =>
      rw [hil] at h
      obtain ⟨front, idx⟩ := q
      simp only [pure, Except.pure, Except.ok.injEq] at h
      have hidx := interleave_idx prompts (sg.filter isComposerGen) front idx 0
        (Nat.zero_le _) hil
      refine ⟨sg, front, rfl, ?_⟩
      rw [← h, hidx]
      simp only [Nat.zero_add]

/-- C3 witness: two prompts against one composer generation: the second
prompt trails the interleaved messages as a user message with no
timestamp. -/
theorem C3_leftover_prompts_witness :
    ∃ sg front, sessionGensOf [c10Gen1] J.null J.null = .ok sg ∧
      c3Msgs = front ++
        leftoverMessages c3Prompts
          (min ((sg.filter isComposerGen).length) c3Prompts.length) :=
  C3_leftover_prompts c3Prompts [c10Gen1] J.null J.null c3Msgs rfl

/-- C10: (1) only composer-typed in-range generations participate in the
prompt/generation interleave — removing every other generation leaves the
reconstruction unchanged, so a non-composer in-range generation contributes
no message and consumes no prompt; (2) the session-listing count counts
every in-range generation regardless of its type (the formula never
consults `type`); (3) consequently, on a concrete store with one composer
and one non-composer in-range generation, `message_count` is 2 while
reconstruction yields a single generation-derived message. -/
theorem C10_composer_only_interleave :
    (∀ (prompts : List J) (gens : List Dict) (s e : J),
       isNullOrNum s = true → isNullOrNum e = true →
       (∀ g ∈ gens, isNullOrNum (dictGetD g "unixMs" J.null) = true) →
       getWorkspaceMessagesCore prompts gens s e =
         getWorkspaceMessagesCore prompts (gens.filter isComposerGen) s e) ∧
    (∀ (gens : List Dict) (s e : J),
       isNullOrNum s = true → isNullOrNum e = true →
       (∀ g ∈ gens, isNullOrNum (dictGetD g "unixMs" J.null) = true) →
       ¬(s = J.null ∧ e = J.null) →
       countMessagesInRange gens s e =
         .ok (Int.ofNat ((gens.filter (inRangeB s e)).length))) ∧
    (countMessagesInRange c10Gens (J.num 0) (J.num 100) = .ok 2 ∧
     getWorkspaceMessagesCore [] c10Gens (J.num 0) (J.num 100) = .ok [c10Msg] ∧
     (([c10Msg].length : Int) < 2)) := by
  refine ⟨?_, ?_, rfl, rfl, by norm_num⟩
  · intro prompts gens s e hs he hwt
    exact core_composer_only prompts gens s e hs he hwt
  · intro gens s e hs he hwt hnn
    exact count_wt s e gens hs he hwt hnn

/-- C10 witness: the concrete two-generation store reconstructs identically
with and without its non-composer generation, and its count follows the
type-blind formula. -/
theorem C10_composer_only_interleave_witness :
    getWorkspaceMessagesCore [J.str "p"] c10Gens (J.num 0) (J.num 100) =
      getWorkspaceMessagesCore [J.str "p"] (c10Gens.filter isComposerGen)
        (J.num 0) (J.num 100) ∧
    countMessagesInRange c10Gens (J.num 0) (J.num 100) =
      .ok (Int.ofNat ((c10Gens.filter (inRangeB (J.num 0) (J.num 100))).length)) := by
  have hwt : ∀ g ∈ c10Gens, isNullOrNum (dictGetD g "unixMs" J.null) = true := by
    intro g hg
    simp only [c10Gens, List.mem_cons, List.not_mem_nil, or_false] at hg
    rcases hg with rfl | rfl <;> rfl
  exact ⟨C10_composer_only_interleave.1 [J.str "p"] c10Gens (J.num 0) (J.num 100) rfl rfl hwt,
         C10_composer_only_interleave.2.1 c10Gens (J.num 0) (J.num 100) rfl rfl hwt
           (by rintro ⟨h, -⟩; exact J.noConfusion h)⟩



/-- C1 (code-bug evidence): in the legacy schema (no part directory), an
assistant message descriptor with no `summary.title` and no `mode`/`finish`
decodes to a `Message` whose content is the empty string — blank, where the
claim (and the repository's own tests, which expect a non-empty "content
not available in v1.0" notice) requires non-empty content.  The second
conjunct shows the `mode`/`finish` case: the code emits the bracketed
notice containing both values, which also fails the repository's own test
asserting "not available" and "v1.0" appear; the third shows the verbatim
`summary.title` case the code honors. -/
theorem C1_legacy_blank_content :
    parseMessageFile [("role", J.str "assistant")] "msg_x" [] =
      .ok { role := J.str "assistant", content := J.str "", timestamp := none,
            message_type := "text", metadata := [] } ∧
    parseMessageFile [("role", J.str "assistant"), ("mode", J.str "code"),
                      ("finish", J.str "stop")] "msg_y" [] =
      .ok { role := J.str "assistant", content := J.str "[mode: code, finish: stop]",
            timestamp := none, message_type := "text", metadata := [] } ∧
    parseMessageFile [("role", J.str "user"),
                      ("summary", J.obj [("title", J.str "Build a login page")])] "msg_z" [] =
      .ok { role := J.str "user", content := J.str "Build a login page", timestamp := none,
            message_type := "text", metadata := [] } := ⟨rfl, rfl, rfl⟩

/-- C9: serializing a session and its messages with `session_to_json` and
parsing the result back reproduces the session's `id`, `title`, `source`,
`project_path` and `message_count`, and an equal-length `messages` array
whose entries carry the original `role` and `content`. -/
theorem C9_roundtrip (s : Session) (msgs : List Message) :
    (∃ sess, jGet (sessionToJson s msgs) "session" = some sess ∧
       jGet sess "id" = some (J.str s.id) ∧
       jGet sess "title" = some s.title ∧
       jGet sess "source" = some (J.str s.source) ∧
       jGet sess "project_path" = some s.project_path ∧
       jGet sess "message_count" = some s.message_count) ∧
    (∃ arr, jGet (sessionToJson s msgs) "messages" = some (J.arr arr) ∧
       arr.length = msgs.length ∧
       ∀ i m, msgs.get? i = some m → ∃ mj, arr.get? i = some mj ∧
         jGet mj "role" = some m.role ∧ jGet mj "content" = some m.content) := by
  constructor
  · exact ⟨_, rfl, rfl, rfl, rfl, rfl, rfl⟩
  · refine ⟨msgs.map messageToJsonJ, rfl, by simp, ?_⟩
    intro i m hm
    refine ⟨messageToJsonJ m, ?_, rfl, rfl⟩
    rw [List.get?_map, hm]
    rfl

/-- C9 witness: the concrete fixture round-trips, with the first message's
role and content recovered at index 0. -/
theorem C9_roundtrip_witness :
    ∃ arr, jGet (sessionToJson c9Session c9Msgs) "messages" = some (J.arr arr) ∧
      arr.length = 2 ∧
      (∃ mj, arr.get? 0 = some mj ∧ jGet mj "role" = some (J.str "user") ∧
        jGet mj "content" = some (J.str "q")) := by
  obtain ⟨-, arr, ha, hlen, hidx⟩ := C9_roundtrip c9Session c9Msgs
  exact ⟨arr, ha, hlen.trans (by rfl), hidx 0 _ rfl⟩


lemma pySlice_length (s : String) (n : Nat) : (pySlice s n).length ≤ n := by
  simp only [pySlice, String.length]
  rw [List.length_take]
  omega

/-- Helper: truncation never exceeds its cap (for caps of at least 3). -/
lemma pyTruncate_length (s : String) (n : Nat) (h3 : 3 ≤ n) :
    (pyTruncate s n).length ≤ n := by
  unfold pyTruncate
  by_cases h : s.length ≤ n
  · rw [if_pos h]; exact h
  · rw [if_neg h]
    rw [String.length_append]
    have := pySlice_length s (n - 3)
    have hdots : ("..." : String).length = 3 := rfl
    omega

/-- Helper: every element of a successful `mapM` result comes from applying
the function to some input element. -/
lemma mapM_ok_mem {α β : Type} (f : α → PyResult β) :
    ∀ (xs : List α) (ys : List β), xs.mapM f = .ok ys → ∀ y ∈ ys, ∃ x ∈ xs, f x = .ok y := by
  intro xs
  induction xs with
  | nil =>
    intro ys h y hy
    simp only [List.mapM_nil, pure, Except.pure, Except.ok.injEq] at h
    rw [← h] at hy
    exact absurd hy (List.not_mem_nil y)
  | cons a l ih =>
    intro ys h y hy
    rw [List.mapM_cons] at h
    simp only [bind, Except.bind] at h
    cases hfa : f a with
    | error e => rw [hfa] at h; exact absurd h (by simp)
    | ok b =>
      rw [hfa] at h
      cases hrest : l.mapM f with
      | error e => rw [hrest] at h; exact absurd h (by simp)
      | ok bs =>
        rw [hrest] at h
        simp only [pure, Except.pure, Except.ok.injEq] at h
        rw [← h] at hy
        rcases List.mem_cons.mp hy with rfl | hy2
        · exact ⟨a, List.mem_cons_self a l, hfa⟩
        · obtain ⟨x, hx, hfx⟩ := ih bs hrest y hy2
          exact ⟨x, List.mem_cons_of_mem a hx, hfx⟩

/-- Helper: a session built from a `sessions-index.json` entry has a string
title of at most 80 characters (the code slices with `[:80]`). -/
lemma claudeIndexEntry_title (entry : J) (pd dp : String) (s : Session)
    (h : claudeSessionFromIndexEntry entry pd dp = .ok (some s)) :
    ∃ t, s.title = J.str t ∧ t.length ≤ 80 := by
  cases entry with
  | obj kvs =>
    simp only [claudeSessionFromIndexEntry] at h
    by_cases ht : pyTruthy (dictGetD kvs "sessionId" (J.str "")) = true
    · simp only [ht, Bool.not_true, Bool.false_eq_true, if_false] at h
      simp only [bind, Except.bind] at h
      split at h
      · rename_i t2 heq
        simp only [pure, Except.pure] at h
        cases hc1 : parseIso (dictGetD kvs "created" J.null) with
        | error e => rw [hc1] at h; exact absurd h (by simp)
        | ok created =>
          rw [hc1] at h
          simp only [] at h
          cases hc2 : parseIso (dictGetD kvs "modified" J.null) with
          | error e => rw [hc2] at h; exact absurd h (by simp)
          | ok modified =>
            rw [hc2] at h
            simp only [pure, Except.pure, Except.ok.injEq, Option.some.injEq] at h
            refine ⟨pySlice t2 80, ?_, pySlice_length t2 80⟩
            rw [← h]
      · exact absurd h (by simp)
    · simp only [ht] at h
      simp only [Bool.not_false, if_true, pure, Except.pure, Except.ok.injEq] at h
      cases h
  | null => exact absurd h (by simp [claudeSessionFromIndexEntry, pure, Except.pure])
  | bool b => exact absurd h (by simp [claudeSessionFromIndexEntry, pure, Except.pure])
  | num n => exact absurd h (by simp [claudeSessionFromIndexEntry, pure, Except.pure])
  | str s2 => exact absurd h (by simp [claudeSessionFromIndexEntry, pure, Except.pure])
  | arr xs => exact absurd h (by simp [claudeSessionFromIndexEntry, pure, Except.pure])

/-- Helper: a successful dict coercion pins the underlying value. -/
lemma asDict_obj {v : J} {kvs : Dict} (h : asDict v = .ok kvs) : v = J.obj kvs := by
  cases v <;> simp [asDict] at h <;> try rfl
  rw [h]


/-- Helper: the scanned-jsonl title is `"Untitled"` or a `[:80]` slice. -/
lemma scanTitle_length :
    ∀ (entries : List J) (t : String), scanTitle entries = .ok t → t.length ≤ 80 := by
  intro entries
  induction entries with
  | nil =>
    intro t h
    simp only [scanTitle, pure, Except.pure, Except.ok.injEq] at h
    rw [← h]
    decide
  | cons e rest ih =>
    intro t h
    simp only [scanTitle, bind, Except.bind] at h
    cases hd : asDict e with
    | error ex => rw [hd] at h; exact absurd h (by simp)
    | ok kvs =>
      rw [hd] at h
      simp only [] at h
      by_cases hty : (jEqStr (dictGetD kvs "type" J.null) "human" ||
          jEqStr (dictGetD kvs "type" J.null) "user") = true
      · rw [if_pos hty] at h
        cases he : extractUserText kvs with
        | error ex => rw [he] at h; exact absurd h (by simp)
        | ok text =>
          rw [he] at h
          simp only [] at h
          by_cases hne : text ≠ ""
          · rw [if_pos hne] at h
            simp only [pure, Except.pure, Except.ok.injEq] at h
            rw [← h]
            exact pySlice_length text 80
          · rw [if_neg hne] at h
            exact ih t h
      · rw [if_neg hty] at h
        exact ih t h

/-- Helper: a session built by the jsonl scan has a bounded string title. -/
lemma scanSession_title (f : String × Nat × List J) (pd dp : String) (s : Session)
    (h : (do
        let title ← scanTitle f.2.2
        pure { id := "claude:" ++ pd ++ ":" ++ f.1, workspace_id := pd,
               title := J.str title, message_count := J.num (Int.ofNat f.2.1),
               source := "claude_code",
               project_path := J.str dp : Session }) = Except.ok s) :
    ∃ t, s.title = J.str t ∧ t.length ≤ 80 := by
  simp only [bind, Except.bind] at h
  cases ht : scanTitle f.2.2 with
  | error ex => rw [ht] at h; exact absurd h (by simp)
  | ok title =>
    rw [ht] at h
    simp only [pure, Except.pure, Except.ok.injEq] at h
    exact ⟨title, by rw [← h], scanTitle_length f.2.2 title ht⟩

/-- Helper: a global-tab title is `"Chat"` or a truncation to 80. -/
lemma globalTitle_length :
    ∀ (bubbles : List J) (t : J), globalTitleOfBubbles bubbles = .ok t →
      ∃ u, t = J.str u ∧ u.length ≤ 80 := by
  intro bubbles
  induction bubbles with
  | nil =>
    intro t h
    simp only [globalTitleOfBubbles, pure, Except.pure, Except.ok.injEq] at h
    exact ⟨"Chat", h.symm, by decide⟩
  | cons b rest ih =>
    intro t h
    simp only [globalTitleOfBubbles, bind, Except.bind] at h
    cases hd : asDict b with
    | error ex => rw [hd] at h; exact absurd h (by simp)
    | ok kvs =>
      rw [hd] at h
      simp only [] at h
      by_cases hu : jEqStr (dictGetD kvs "type" J.null) "user" = true
      · rw [if_pos hu] at h
        split at h
        · rename_i u heq
          simp only [pure, Except.pure, Except.ok.injEq] at h
          refine ⟨pyTruncate u 80, h.symm, pyTruncate_length u 80 (by omega)⟩
        · exact absurd h (by simp)
      · rw [if_neg hu] at h
        exact ih t h

/-- Helper: a workspace-composer session title is either bounded by 80 (the
truncated-prompt path) or the verbatim stripped composer name. -/
lemma cursorComposer_title (comp : J) (wsHash dp : String) (prompts : List J)
    (gens : List Dict) (s : Session)
    (h : cursorSessionOfComposer comp wsHash dp prompts gens = .ok (some s)) :
    ∃ t, s.title = J.str t ∧
      (t.length ≤ 80 ∨
       ∃ kvs nm, comp = J.obj kvs ∧ dictGetD kvs "name" (J.str "") = J.str nm ∧
         t = pyStrip nm) := by
  simp only [cursorSessionOfComposer, bind, Except.bind] at h
  cases hd : asDict comp with
  | error ex => rw [hd] at h; exact absurd h (by simp)
  | ok kvs =>
    rw [hd] at h
    simp only [] at h
    by_cases hc : pyTruthy (dictGetD kvs "composerId" (J.str "")) = true
    · simp only [hc, Bool.not_true, Bool.false_eq_true, if_false] at h
      split at h
      · rename_i nm hnm
        simp only [pure, Except.pure] at h
        cases hcount : countMessagesInRange gens (dictGetD kvs "createdAt" J.null)
            (dictGetD kvs "lastUpdatedAt" J.null) with
        | error ex => rw [hcount] at h; exact absurd h (by simp)
        | ok cnt =>
          rw [hcount] at h
          simp only [] at h
          cases hm1 : msToDatetimeJ (dictGetD kvs "createdAt" J.null) with
          | error ex => rw [hm1] at h; exact absurd h (by simp)
          | ok created =>
            rw [hm1] at h
            simp only [] at h
            cases hm2 : msToDatetimeJ (dictGetD kvs "lastUpdatedAt" J.null) with
            | error ex => rw [hm2] at h; exact absurd h (by simp)
            | ok updated =>
              rw [hm2] at h
              simp only [] at h
              by_cases hn : pyStrip nm ≠ ""
              · rw [if_pos hn] at h
                simp only [pure, Except.pure, Except.ok.injEq, Option.some.injEq] at h
                refine ⟨pyStrip nm, by rw [← h], Or.inr ⟨kvs, nm, ?_, hnm, rfl⟩⟩
                have := asDict_obj hd
                exact this
              · rw [if_neg hn] at h
                split at h
                · rename_i p hp
                  simp only [pure, Except.pure, Except.ok.injEq, Option.some.injEq] at h
                  exact ⟨pyTruncate p 80, by rw [← h],
                         Or.inl (pyTruncate_length p 80 (by omega))⟩
                · rename_i hnp
                  exact absurd h (by simp)
                · simp only [pure, Except.pure, Except.ok.injEq, Option.some.injEq] at h
                  exact ⟨pyTruncate "Untitled" 80, by rw [← h],
                         Or.inl (pyTruncate_length "Untitled" 80 (by omega))⟩
      · exact absurd h (by simp)
    · simp only [hc] at h
      simp only [Bool.not_false, if_true, pure, Except.pure, Except.ok.injEq] at h
      cases h

/-- C5 counterexample: the OpenCode session parser stores the session
file's `title` verbatim — an 81-character stored title yields a `Session`
whose title has 81 characters, breaching the claimed 80-character cap. -/
theorem C5_counterexample :
    parseSessionFile [("title", J.str c5LongTitle)] "ses" "proj" 0 =
      .ok { id := "opencode:ses", workspace_id := "proj", title := J.str c5LongTitle,
            message_count := J.num 0, created := none, updated := none,
            source := "opencode", project_path := J.str "" } ∧
    80 < c5LongTitle.length := by
  constructor
  · rfl
  · show 80 < (List.replicate 81 'x').length
    rw [List.length_replicate]
    omega

/-- C5 amended: every Claude Code session title (index path and scan path)
is a string of at most 80 characters; a Cursor workspace session title is
bounded by 80 unless it is the verbatim stripped composer `name`; a Cursor
global session title is bounded by 80.  (OpenCode titles and Cursor
composer names are stored verbatim and may exceed 80 — see the
counterexample.) -/
theorem C5_title_length_bounds :
    (∀ (data : J) (pd dp : String) (out : List Session),
       readProjectSessions data pd dp = .ok out →
       ∀ s ∈ out, ∃ t, s.title = J.str t ∧ t.length ≤ 80) ∧
    (∀ (files : List (String × Nat × List J)) (pd dp : String) (out : List Session),
       scanJsonlSessions files pd dp = .ok out →
       ∀ s ∈ out, ∃ t, s.title = J.str t ∧ t.length ≤ 80) ∧
    (∀ (comp : J) (wsHash dp : String) (prompts : List J) (gens : List Dict)
       (s : Session),
       cursorSessionOfComposer comp wsHash dp prompts gens = .ok (some s) →
       ∃ t, s.title = J.str t ∧
         (t.length ≤ 80 ∨
          ∃ kvs nm, comp = J.obj kvs ∧ dictGetD kvs "name" (J.str "") = J.str nm ∧
            t = pyStrip nm)) ∧
    (∀ (tab : J) (s : Session), globalSessionOfTab tab = .ok (some s) →
       ∃ t, s.title = J.str t ∧ t.length ≤ 80) := by
  refine ⟨?_, ?_, ?_, ?_⟩
  · intro data pd dp out h s hs
    cases data with
    | arr entries =>
      simp only [readProjectSessions, bind, Except.bind] at h
      cases hmm : entries.mapM (fun e => claudeSessionFromIndexEntry e pd dp) with
      | error ex => rw [hmm] at h; exact absurd h (by simp)
      | ok opts =>
        rw [hmm] at h
        simp only [pure, Except.pure, Except.ok.injEq] at h
        rw [← h] at hs
        obtain ⟨o, ho, hid⟩ := List.mem_filterMap.mp hs
        obtain ⟨entry, hentry, hfe⟩ := mapM_ok_mem _ entries opts hmm o ho
        cases o with
        | none => cases hid
        | some s2 =>
          cases hid
          exact claudeIndexEntry_title entry pd dp s hfe
    | null => simp only [readProjectSessions, pure, Except.pure, Except.ok.injEq] at h; rw [← h] at hs; exact absurd hs (List.not_mem_nil s)
    | bool b => simp only [readProjectSessions, pure, Except.pure, Except.ok.injEq] at h; rw [← h] at hs; exact absurd hs (List.not_mem_nil s)
    | num n => simp only [readProjectSessions, pure, Except.pure, Except.ok.injEq] at h; rw [← h] at hs; exact absurd hs (List.not_mem_nil s)
    | str x => simp only [readProjectSessions, pure, Except.pure, Except.ok.injEq] at h; rw [← h] at hs; exact absurd hs (List.not_mem_nil s)
    | obj kvs => simp only [readProjectSessions, pure, Except.pure, Except.ok.injEq] at h; rw [← h] at hs; exact absurd hs (List.not_mem_nil s)
  · intro files pd dp out h s hs
    obtain ⟨f, hf, hff⟩ := mapM_ok_mem _ files out h s hs
    exact scanSession_title f pd dp s hff
  · intro comp wsHash dp prompts gens s h
    exact cursorComposer_title comp wsHash dp prompts gens s h
  · intro tab s h
    simp only [globalSessionOfTab, bind, Except.bind] at h
    cases hd : asDict tab with
    | error ex => rw [hd] at h; exact absurd h (by simp)
    | ok kvs =>
      rw [hd] at h
      simp only [] at h
      by_cases htb : (!pyTruthy (dictGetD kvs "tabId" (J.str "")) ||
          !pyTruthy (dictGetD kvs "bubbles" (J.arr []))) = true
      · rw [if_pos htb] at h
        simp only [pure, Except.pure, Except.ok.injEq] at h
        cases h
      · rw [if_neg htb] at h
        cases hbi : pyIter (dictGetD kvs "bubbles" (J.arr [])) with
        | error ex => rw [hbi] at h; exact absurd h (by simp)
        | ok bubbles =>
          rw [hbi] at h
          simp only [] at h
          cases hgt : globalTitleOfBubbles bubbles with
          | error ex => rw [hgt] at h; exact absurd h (by simp)
          | ok title =>
            rw [hgt] at h
            simp only [pure, Except.pure, Except.ok.injEq, Option.some.injEq] at h
            obtain ⟨u, hu, hlen⟩ := globalTitle_length bubbles title hgt
            exact ⟨u, by rw [← h]; exact hu, hlen⟩

/-- C5 witness: a concrete one-entry index produces sessions whose titles
all fit in 80 characters. -/
theorem C5_title_length_bounds_witness :
    ∃ out, readProjectSessions c5IndexData "proj" "/p" = .ok out ∧
      ∀ s ∈ out, ∃ t, s.title = J.str t ∧ t.length ≤ 80 := by
  refine ⟨_, rfl, ?_⟩
  intro s hs
  exact C5_title_length_bounds.1 c5IndexData "proj" "/p" _ rfl s hs


theorem C6_counterexample :
    cursorGetSessionMessages c6BadFS "cursor:w:unknown" =
      .error "AttributeError: no attribute get" := rfl

/-- Helper: among well-formed composers none of which matches, the search
finds nothing and does not raise. -/
lemma findComposer_none (cid : String) :
    ∀ comps, (∀ c ∈ comps, ∃ kvs, c = J.obj kvs ∧
        jEqStr (dictGetD kvs "composerId" J.null) cid = false) →
      findComposer comps cid = .ok none := by
  intro comps
  induction comps with
  | nil => intro _; rfl
  | cons c rest ih =>
    intro hall
    obtain ⟨kvs, hc, hfalse⟩ := hall c (List.mem_cons_self c rest)
    subst hc
    simp only [findComposer, asDict, bind, Except.bind]
    rw [hfalse]
    simp only [Bool.false_eq_true, if_false]
    exact ih (fun x hx => hall x (List.mem_cons_of_mem _ hx))

/-- Helper: among well-formed tabs none of which matches, the search yields
no messages and does not raise. -/
lemma findTabMessages_none (tid : String) :
    ∀ tabs, (∀ t ∈ tabs, ∃ kvs, t = J.obj kvs ∧
        jEqStr (dictGetD kvs "tabId" J.null) tid = false) →
      findTabMessages tabs tid = .ok [] := by
  intro tabs
  induction tabs with
  | nil => intro _; rfl
  | cons t rest ih =>
    intro hall
    obtain ⟨kvs, ht2, hfalse⟩ := hall t (List.mem_cons_self t rest)
    subst ht2
    simp only [findTabMessages, asDict, bind, Except.bind]
    rw [hfalse]
    simp only [Bool.not_false, if_true]
    exact ih (fun x hx => hall x (List.mem_cons_of_mem _ hx))

/-- C6 amended: for every backend, `get_session_messages` returns the empty
list and does not raise for every malformed id (wrong tag or too few
colon-separated parts, on any store), and for well-formed ids whose
referenced store entry is absent (missing jsonl file, missing message
directory, missing workspace database, missing global store) or whose
referenced session is absent among well-formed entries (no matching
composer dict, no matching tab dict).  With structurally malformed store
entries on the lookup path, an unknown-id fetch can raise (see the
counterexample). -/
theorem C6_empty_for_malformed_or_unknown :
    (∀ (fs : ClaudeFS) (sid : String),
       (∀ p1 p2, pySplitCh sid ':' 2 ≠ ["claude", p1, p2]) →
       claudeGetSessionMessages fs sid = .ok []) ∧
    (∀ (fs : ClaudeFS) (sid p1 p2 : String),
       pySplitCh sid ':' 2 = ["claude", p1, p2] →
       fs.files.find? (fun kv => kv.1.1 = p1 && kv.1.2 = p2) = none →
       claudeGetSessionMessages fs sid = .ok []) ∧
    (∀ (fs : OpenCodeFS) (sid : String),
       (∀ p1, pySplitCh sid ':' 1 ≠ ["opencode", p1]) →
       opencodeGetSessionMessages fs sid = .ok []) ∧
    (∀ (fs : OpenCodeFS) (sid p1 : String),
       pySplitCh sid ':' 1 = ["opencode", p1] →
       fs.messageDirs.find? (fun kv => kv.1 = p1) = none →
       opencodeGetSessionMessages fs sid = .ok []) ∧
    (∀ (fs : CursorFS) (sid : String),
       (∀ p1 p2, pySplitCh sid ':' 2 ≠ ["cursor", p1, p2]) →
       cursorGetSessionMessages fs sid = .ok []) ∧
    (∀ (fs : CursorFS) (wsHash cid : String),
       fs.workspaces.find? (fun kv => kv.1 = wsHash) = none →
       getWorkspaceMessages fs wsHash cid = .ok []) ∧
    (∀ (fs : CursorFS) (tid : String), fs.globalDb = none →
       getGlobalMessages fs tid = .ok []) ∧
    (∀ (fs : CursorFS) (wsHash cid : String) (wdb : String × CursorDB)
       (dataKvs : Dict) (comps : List J),
       fs.workspaces.find? (fun kv => kv.1 = wsHash) = some wdb →
       queryParsed wdb.2 "composer.composerData" = some (some (J.obj dataKvs)) →
       dictGetD dataKvs "allComposers" (J.arr []) = J.arr comps →
       (∀ c ∈ comps, ∃ kvs, c = J.obj kvs ∧
          jEqStr (dictGetD kvs "composerId" J.null) cid = false) →
       getWorkspaceMessages fs wsHash cid = .ok []) ∧
    (∀ (fs : CursorFS) (tid : String) (db : CursorDB) (dataKvs : Dict)
       (tabs : List J),
       fs.globalDb = some db →
       queryParsed db "workbench.panel.aichat.view.aichat.chatdata" =
         some (some (J.obj dataKvs)) →
       dictGetD dataKvs "tabs" (J.arr []) = J.arr tabs →
       (∀ t ∈ tabs, ∃ kvs, t = J.obj kvs ∧
          jEqStr (dictGetD kvs "tabId" J.null) tid = false) →
       getGlobalMessages fs tid = .ok []) := by
  refine ⟨?_, ?_, ?_, ?_, ?_, ?_, ?_, ?_, ?_⟩
  · intro fs sid hmal
    unfold claudeGetSessionMessages
    split
    · rename_i p0 p1 p2 hsp
      by_cases h0 : p0 = "claude"
      · subst h0; exact absurd hsp (hmal p1 p2)
      · rw [if_pos (by simpa using h0)]; rfl
    · rfl
  · intro fs sid p1 p2 hsp hfind
    unfold claudeGetSessionMessages
    rw [hsp]
    simp [hfind, pure, Except.pure]
  · intro fs sid hmal
    unfold opencodeGetSessionMessages
    split
    · rename_i p0 p1 hsp
      by_cases h0 : p0 = "opencode"
      · subst h0; exact absurd hsp (hmal p1)
      · rw [if_pos (by simpa using h0)]; rfl
    · rfl
  · intro fs sid p1 hsp hfind
    unfold opencodeGetSessionMessages
    rw [hsp]
    simp [hfind, pure, Except.pure]
  · intro fs sid hmal
    unfold cursorGetSessionMessages
    split
    · rename_i p0 p1 p2 hsp
      by_cases h0 : p0 = "cursor"
      · subst h0; exact absurd hsp (hmal p1 p2)
      · rw [if_pos (by simpa using h0)]; rfl
    · rfl
  · intro fs wsHash cid hfind
    unfold getWorkspaceMessages
    rw [hfind]
    rfl
  · intro fs tid hg
    unfold getGlobalMessages
    rw [hg]
    rfl
  · intro fs wsHash cid wdb dataKvs comps hdb hq hcomps hnone
    unfold getWorkspaceMessages
    rw [hdb]
    simp only []
    rw [hq]
    simp only [asDict, bind, Except.bind]
    rw [hcomps]
    simp only [pyIter]
    rw [findComposer_none cid comps hnone]
    rfl
  · intro fs tid db dataKvs tabs hg hq htabs hnone
    unfold getGlobalMessages
    rw [hg]
    simp only []
    rw [hq]
    simp only [asDict, bind, Except.bind]
    rw [htabs]
    simp only [pyIter]
    exact findTabMessages_none tid tabs hnone

/-- C6 witness: concrete malformed and unknown ids against concrete stores
all produce the empty list. -/
theorem C6_empty_for_malformed_or_unknown_witness :
    claudeGetSessionMessages ⟨[]⟩ "oops:a:b" = .ok [] ∧
    claudeGetSessionMessages ⟨[]⟩ "claude:proj:missing" = .ok [] ∧
    opencodeGetSessionMessages ⟨[], []⟩ "cursor:x" = .ok [] ∧
    opencodeGetSessionMessages ⟨[], []⟩ "opencode:missing" = .ok [] ∧
    cursorGetSessionMessages ⟨[], none⟩ "invalid" = .ok [] ∧
    getWorkspaceMessages ⟨[], none⟩ "w" "c" = .ok [] ∧
    getGlobalMessages ⟨[], none⟩ "t" = .ok [] ∧
    getWorkspaceMessages c6OtherFS "w" "missing" = .ok [] := by
  refine ⟨?_, ?_, ?_, ?_, ?_, ?_, ?_, ?_⟩
  · refine C6_empty_for_malformed_or_unknown.1 ⟨[]⟩ "oops:a:b" ?_
    intro p1 p2 h
    rw [show pySplitCh "oops:a:b" ':' 2 = ["oops", "a", "b"] from rfl] at h
    exact absurd (List.cons.inj h).1 (by decide)
  · exact C6_empty_for_malformed_or_unknown.2.1 ⟨[]⟩ "claude:proj:missing"
      "proj" "missing" rfl rfl
  · refine C6_empty_for_malformed_or_unknown.2.2.1 ⟨[], []⟩ "cursor:x" ?_
    intro p1 h
    rw [show pySplitCh "cursor:x" ':' 1 = ["cursor", "x"] from rfl] at h
    exact absurd (List.cons.inj h).1 (by decide)
  · exact C6_empty_for_malformed_or_unknown.2.2.2.1 ⟨[], []⟩ "opencode:missing"
      "missing" rfl rfl
  · refine C6_empty_for_malformed_or_unknown.2.2.2.2.1 ⟨[], none⟩ "invalid" ?_
    intro p1 p2 h
    rw [show pySplitCh "invalid" ':' 2 = ["invalid"] from rfl] at h
    have hl := congrArg List.length h
    simp at hl
  · exact C6_empty_for_malformed_or_unknown.2.2.2.2.2.1 ⟨[], none⟩ "w" "c" rfl
  · exact C6_empty_for_malformed_or_unknown.2.2.2.2.2.2.1 ⟨[], none⟩ "t" rfl
  · refine C6_empty_for_malformed_or_unknown.2.2.2.2.2.2.2.1 c6OtherFS "w" "missing"
      ("w", c6OtherDb) [("allComposers", J.arr [J.obj [("composerId", J.str "other")]])]
      [J.obj [("composerId", J.str "other")]] rfl rfl rfl ?_
    intro c hc
    simp only [List.mem_singleton] at hc
    subst hc
    exact ⟨_, rfl, rfl⟩


end AichatHistory
